import Mathlib

/-!
Verification of the MCAP record-serialization layer: a shallow embedding of
the record builder in mcap/data_stream.py and the 15 record encoders in
mcap/records.py, together with theorems about the emitted byte layout.

Modelling notes.
* Bytes are natural numbers below 256; buffers are lists of bytes.
* The target platform is MicroPython, whose struct.pack masks an oversized
  value to the field width instead of raising (a documented difference from
  CPython).  The width-w little-endian writers therefore append the bytes of
  the value reduced modulo 2 ^ (8 * w); this is realized by the per-byte
  reductions in toLE.
* BytesIO.write at a seek position overwrites in place, extends at the end,
  and zero-fills any gap between the end of the buffer and the position;
  bufWrite models exactly that.
* Python integers are unbounded and signed; the length computed by
  finish_record is modelled as an Int and masked to 64 bits when packed.
-/

namespace Mcap

/-- Little-endian encoding of a value into exactly w bytes; high bits beyond
the field width are dropped, matching struct.pack on the target platform. -/
def toLE : Nat → Nat → List Nat
  | 0, _ => []
  | w + 1, v => v % 256 :: toLE w (v / 256)

/-- Little-endian byte-list decoding, the inverse reading of toLE. -/
def fromLE : List Nat → Nat
  | [] => 0
  | b :: rest => b + 256 * fromLE rest

theorem toLE_length (w v : Nat) : (toLE w v).length = w := by
  induction w generalizing v with
  | zero => rfl
  | succ w ih => simp [toLE, ih]

theorem fromLE_toLE (w v : Nat) : fromLE (toLE w v) = v % 256 ^ w := by
  induction w generalizing v with
  | zero => simp [toLE, fromLE, Nat.mod_one]
  | succ w ih =>
      rw [toLE, fromLE, ih, pow_succ, mul_comm (256 ^ w) 256, Nat.mod_mul]

theorem fromLE_toLE_of_lt {w v : Nat} (h : v < 256 ^ w) :
    fromLE (toLE w v) = v := by
  rw [fromLE_toLE, Nat.mod_eq_of_lt h]

theorem toLE_mod (w v : Nat) : toLE w (v % 256 ^ w) = toLE w v := by
  induction w generalizing v with
  | zero => rfl
  | succ w ih =>
      have h256 : 256 ^ (w + 1) = 256 * 256 ^ w := by
        rw [pow_succ, mul_comm]
      have hmod : v % 256 ^ (w + 1) % 256 = v % 256 := by
        rw [h256]
        exact Nat.mod_mod_of_dvd v ⟨256 ^ w, rfl⟩
      have hdiv : v % 256 ^ (w + 1) / 256 = v / 256 % 256 ^ w := by
        rw [h256, Nat.mod_mul, Nat.add_mul_div_left _ _ (by norm_num),
          Nat.div_eq_of_lt (Nat.mod_lt v (by norm_num)), Nat.zero_add]
      rw [toLE, hmod, hdiv, toLE, ih]

/-- UTF-8 encoding of one scalar value, as produced by the Python
str.encode method (Lean Char values are exactly the Unicode scalars). -/
def utf8EncodeCharM (c : Char) : List Nat :=
  let v := c.toNat
  if v < 0x80 then [v]
  else if v < 0x800 then [0xC0 + v / 64, 0x80 + v % 64]
  else if v < 0x10000 then [0xE0 + v / 4096, 0x80 + v / 64 % 64, 0x80 + v % 64]
  else [0xF0 + v / 262144, 0x80 + v / 4096 % 64, 0x80 + v / 64 % 64, 0x80 + v % 64]

/-- UTF-8 bytes of a whole string, as produced by value.encode() in
write_prefixed_string. -/
def utf8Bytes (s : String) : List Nat :=
  s.data.foldr (fun c acc => utf8EncodeCharM c ++ acc) []

/-- One shift-xor step of the reflected CRC-32 polynomial 0xEDB88320. -/
def crc32Step (c : Nat) : Nat :=
  if c % 2 = 1 then (c / 2) ^^^ 0xEDB88320 else c / 2

/-- CRC-32 update for a single byte (eight polynomial steps). -/
def crc32Byte (c b : Nat) : Nat :=
  let c0 := c ^^^ b
  let c1 := crc32Step c0
  let c2 := crc32Step c1
  let c3 := crc32Step c2
  let c4 := crc32Step c3
  let c5 := crc32Step c4
  let c6 := crc32Step c5
  let c7 := crc32Step c6
  crc32Step c7

/-- CRC-32 of a byte sequence with initial value 0, as computed by
zlib.crc32 in the Attachment encoder. -/
def crc32 (data : List Nat) : Nat :=
  (data.foldl crc32Byte 0xFFFFFFFF) ^^^ 0xFFFFFFFF

/-- The record builder state: the byte buffer of the underlying BytesIO, the
current seek position, and the remembered start offset of the open record.
Translated from class RecordBuilder in mcap/data_stream.py. -/
structure RecordBuilder where
  buffer : List Nat
  pos : Nat
  recordStartOffset : Nat
deriving DecidableEq

/-- A freshly constructed RecordBuilder: empty BytesIO.  The Python object
leaves _record_start_offset unset until the first start_record call; the
model initializes it to 0, which no claim exercises before a start. -/
def RecordBuilder.init : RecordBuilder := ⟨[], 0, 0⟩

/-- BytesIO.write semantics at an arbitrary seek position: overwrite in
place, zero-fill a gap past the end, extend as needed. -/
def bufWrite (buf : List Nat) (pos : Nat) (data : List Nat) : List Nat :=
  let padded := buf ++ List.replicate (pos - buf.length) 0
  padded.take pos ++ data ++ padded.drop (pos + data.length)

/-- The count property: the current value of buffer.tell(). -/
def RecordBuilder.count (s : RecordBuilder) : Nat := s.pos

/-- The write method: self._buffer.write(data). -/
def RecordBuilder.write (s : RecordBuilder) (data : List Nat) : RecordBuilder :=
  { s with buffer := bufWrite s.buffer s.pos data, pos := s.pos + data.length }

/-- The start_record method: remember tell() as the record start offset,
then write struct.pack of the opcode byte and an 8-byte zero placeholder. -/
def RecordBuilder.start_record (s : RecordBuilder) (opcode : Nat) : RecordBuilder :=
  RecordBuilder.write { s with recordStartOffset := s.pos } (toLE 1 opcode ++ toLE 8 0)

/-- The finish_record method: length = tell() - start - 9, seek to start + 1,
overwrite the 8-byte placeholder with the length, seek back.  The length is
a Python int, hence modelled as an Int masked to 64 bits by pack. -/
def RecordBuilder.finish_record (s : RecordBuilder) : RecordBuilder :=
  let p := s.pos
  let length : Int := (p : Int) - (s.recordStartOffset : Int) - 9
  let lenBytes := toLE 8 (length % (2 : Int) ^ 64).toNat
  { buffer := bufWrite s.buffer (s.recordStartOffset + 1) lenBytes,
    pos := p,
    recordStartOffset := s.recordStartOffset }

/-- The end method: return getvalue() of the whole buffer and replace the
BytesIO with a fresh empty one (the remembered start offset attribute is not
reset by the Python code). -/
def RecordBuilder.endBuffer (s : RecordBuilder) : List Nat × RecordBuilder :=
  (s.buffer, { buffer := [], pos := 0, recordStartOffset := s.recordStartOffset })

/-- The write1 method: struct.pack of one unsigned byte. -/
def RecordBuilder.write1 (s : RecordBuilder) (v : Nat) : RecordBuilder :=
  s.write (toLE 1 v)

/-- The write2 method: struct.pack of a 2-byte little-endian unsigned. -/
def RecordBuilder.write2 (s : RecordBuilder) (v : Nat) : RecordBuilder :=
  s.write (toLE 2 v)

/-- The write4 method: struct.pack of a 4-byte little-endian unsigned. -/
def RecordBuilder.write4 (s : RecordBuilder) (v : Nat) : RecordBuilder :=
  s.write (toLE 4 v)

/-- The write8 method: struct.pack of an 8-byte little-endian unsigned. -/
def RecordBuilder.write8 (s : RecordBuilder) (v : Nat) : RecordBuilder :=
  s.write (toLE 8 v)

/-- The write_prefixed_string method: the UTF-8 byte length as a 4-byte
little-endian unsigned, then the UTF-8 bytes. -/
def RecordBuilder.write_prefixed_string (s : RecordBuilder) (value : String) : RecordBuilder :=
  (s.write4 (utf8Bytes value).length).write (utf8Bytes value)

/-- Modelled from the spec: the source imports Opcode from mcap/opcode.py,
which is not present under src/.  Spec section 6 fixes the mapping
(Header=0x01 through DataEnd=0x0F) in the order the 15 kinds are listed in
spec section 3. -/
def Opcode.HEADER : Nat := 0x01
def Opcode.FOOTER : Nat := 0x02
def Opcode.SCHEMA : Nat := 0x03
def Opcode.CHANNEL : Nat := 0x04
def Opcode.MESSAGE : Nat := 0x05
def Opcode.CHUNK : Nat := 0x06
def Opcode.MESSAGE_INDEX : Nat := 0x07
def Opcode.CHUNK_INDEX : Nat := 0x08
def Opcode.ATTACHMENT : Nat := 0x09
def Opcode.ATTACHMENT_INDEX : Nat := 0x0A
def Opcode.STATISTICS : Nat := 0x0B
def Opcode.METADATA : Nat := 0x0C
def Opcode.METADATA_INDEX : Nat := 0x0D
def Opcode.SUMMARY_OFFSET : Nat := 0x0E
def Opcode.DATA_END : Nat := 0x0F

/-- The Attachment record value (field order of the Python initializer). -/
structure Attachment where
  create_time : Nat
  log_time : Nat
  name : String
  media_type : String
  data : List Nat
deriving DecidableEq

/-- The AttachmentIndex record value. -/
structure AttachmentIndex where
  offset : Nat
  length : Nat
  log_time : Nat
  create_time : Nat
  data_size : Nat
  name : String
  media_type : String
deriving DecidableEq

/-- The Channel record value; the metadata dict is modelled as an
insertion-ordered association list. -/
structure Channel where
  id : Nat
  topic : String
  message_encoding : String
  metadata : List (String × String)
  schema_id : Nat
deriving DecidableEq

/-- The Chunk record value. -/
structure Chunk where
  compression : String
  data : List Nat
  message_end_time : Nat
  message_start_time : Nat
  uncompressed_crc : Nat
  uncompressed_size : Nat
deriving DecidableEq

/-- The ChunkIndex record value; message_index_offsets is an
insertion-ordered association list. -/
structure ChunkIndex where
  chunk_length : Nat
  chunk_start_offset : Nat
  compression : String
  compressed_size : Nat
  message_end_time : Nat
  message_index_length : Nat
  message_index_offsets : List (Nat × Nat)
  message_start_time : Nat
  uncompressed_size : Nat
deriving DecidableEq

/-- The DataEnd record value. -/
structure DataEnd where
  data_section_crc : Nat
deriving DecidableEq

/-- The Footer record value. -/
structure Footer where
  summary_start : Nat
  summary_offset_start : Nat
  summary_crc : Nat
deriving DecidableEq

/-- The Header record value. -/
structure Header where
  profile : String
  library : String
deriving DecidableEq

/-- The Message record value. -/
structure Message where
  channel_id : Nat
  log_time : Nat
  data : List Nat
  publish_time : Nat
  sequence : Nat
deriving DecidableEq

/-- The MessageIndex record value. -/
structure MessageIndex where
  channel_id : Nat
  records : List (Nat × Nat)
deriving DecidableEq

/-- The Metadata record value; the metadata dict is modelled as an
insertion-ordered association list. -/
structure Metadata where
  name : String
  metadata : List (String × String)
deriving DecidableEq

/-- The MetadataIndex record value. -/
structure MetadataIndex where
  offset : Nat
  length : Nat
  name : String
deriving DecidableEq

/-- The Schema record value. -/
structure Schema where
  id : Nat
  data : List Nat
  encoding : String
  name : String
deriving DecidableEq

/-- The Statistics record value; channel_message_counts is an
insertion-ordered association list. -/
structure Statistics where
  attachment_count : Nat
  channel_count : Nat
  channel_message_counts : List (Nat × Nat)
  chunk_count : Nat
  message_count : Nat
  message_end_time : Nat
  message_start_time : Nat
  metadata_count : Nat
  schema_count : Nat
deriving DecidableEq

/-- The SummaryOffset record value. -/
structure SummaryOffset where
  group_opcode : Nat
  group_start : Nat
  group_length : Nat
deriving DecidableEq

/-- The write method of Attachment: build the record in a private builder,
finalize it, copy everything but the 4 placeholder bytes to the destination,
then append the CRC-32 of the byte slice from index 9 up to the last byte
before the placeholder (the Python slice data[9:-4]). -/
def Attachment.write (rec : Attachment) (stream : RecordBuilder) : RecordBuilder :=
  let builder := RecordBuilder.init
  let builder := builder.start_record Opcode.ATTACHMENT
  let builder := builder.write8 rec.log_time
  let builder := builder.write8 rec.create_time
  let builder := builder.write_prefixed_string rec.name
  let builder := builder.write_prefixed_string rec.media_type
  let builder := builder.write8 rec.data.length
  let builder := builder.write rec.data
  let builder := builder.write4 0
  let builder := builder.finish_record
  let data := builder.endBuffer.1
  let stream := stream.write (data.take (data.length - 4))
  stream.write4 (crc32 ((data.drop 9).take (data.length - 13)))

/-- The write method of AttachmentIndex. -/
def AttachmentIndex.write (rec : AttachmentIndex) (stream : RecordBuilder) : RecordBuilder :=
  let stream := stream.start_record Opcode.ATTACHMENT_INDEX
  let stream := stream.write8 rec.offset
  let stream := stream.write8 rec.length
  let stream := stream.write8 rec.log_time
  let stream := stream.write8 rec.create_time
  let stream := stream.write8 rec.data_size
  let stream := stream.write_prefixed_string rec.name
  let stream := stream.write_prefixed_string rec.media_type
  stream.finish_record

/-- The byte length of an encoded metadata map as accumulated by the
meta_length loop shared by Channel.write and Metadata.write: 8 bytes of the
two string length prefixes plus the UTF-8 byte lengths of key and value,
per pair. -/
def metaLen (m : List (String × String)) : Nat :=
  m.foldl (fun acc kv => acc + 8 + (utf8Bytes kv.1).length + (utf8Bytes kv.2).length) 0

/-- The write method of Channel. -/
def Channel.write (rec : Channel) (stream : RecordBuilder) : RecordBuilder :=
  let stream := stream.start_record Opcode.CHANNEL
  let stream := stream.write2 rec.id
  let stream := stream.write2 rec.schema_id
  let stream := stream.write_prefixed_string rec.topic
  let stream := stream.write_prefixed_string rec.message_encoding
  let stream := stream.write4 (metaLen rec.metadata)
  let stream := rec.metadata.foldl
    (fun st kv => (st.write_prefixed_string kv.1).write_prefixed_string kv.2) stream
  stream.finish_record

/-- The write method of Chunk. -/
def Chunk.write (rec : Chunk) (stream : RecordBuilder) : RecordBuilder :=
  let stream := stream.start_record Opcode.CHUNK
  let stream := stream.write8 rec.message_start_time
  let stream := stream.write8 rec.message_end_time
  let stream := stream.write8 rec.uncompressed_size
  let stream := stream.write4 rec.uncompressed_crc
  let stream := stream.write_prefixed_string rec.compression
  let stream := stream.write8 rec.data.length
  let stream := stream.write rec.data
  stream.finish_record

/-- The write method of ChunkIndex. -/
def ChunkIndex.write (rec : ChunkIndex) (stream : RecordBuilder) : RecordBuilder :=
  let stream := stream.start_record Opcode.CHUNK_INDEX
  let stream := stream.write8 rec.message_start_time
  let stream := stream.write8 rec.message_end_time
  let stream := stream.write8 rec.chunk_start_offset
  let stream := stream.write8 rec.chunk_length
  let stream := stream.write4 (rec.message_index_offsets.length * 10)
  let stream := rec.message_index_offsets.foldl
    (fun st e => (st.write2 e.1).write8 e.2) stream
  let stream := stream.write8 rec.message_index_length
  let stream := stream.write_prefixed_string rec.compression
  let stream := stream.write8 rec.compressed_size
  let stream := stream.write8 rec.uncompressed_size
  stream.finish_record

/-- The write method of DataEnd. -/
def DataEnd.write (rec : DataEnd) (stream : RecordBuilder) : RecordBuilder :=
  let stream := stream.start_record Opcode.DATA_END
  let stream := stream.write4 rec.data_section_crc
  stream.finish_record

/-- The write method of Footer. -/
def Footer.write (rec : Footer) (stream : RecordBuilder) : RecordBuilder :=
  let stream := stream.start_record Opcode.FOOTER
  let stream := stream.write8 rec.summary_start
  let stream := stream.write8 rec.summary_offset_start
  let stream := stream.write4 rec.summary_crc
  stream.finish_record

/-- The write method of Header. -/
def Header.write (rec : Header) (stream : RecordBuilder) : RecordBuilder :=
  let stream := stream.start_record Opcode.HEADER
  let stream := stream.write_prefixed_string rec.profile
  let stream := stream.write_prefixed_string rec.library
  stream.finish_record

/-- The write method of Message. -/
def Message.write (rec : Message) (stream : RecordBuilder) : RecordBuilder :=
  let stream := stream.start_record Opcode.MESSAGE
  let stream := stream.write2 rec.channel_id
  let stream := stream.write4 rec.sequence
  let stream := stream.write8 rec.log_time
  let stream := stream.write8 rec.publish_time
  let stream := stream.write rec.data
  stream.finish_record

/-- The write method of MessageIndex. -/
def MessageIndex.write (rec : MessageIndex) (stream : RecordBuilder) : RecordBuilder :=
  let stream := stream.start_record Opcode.MESSAGE_INDEX
  let stream := stream.write2 rec.channel_id
  let stream := stream.write4 (rec.records.length * 16)
  let stream := rec.records.foldl
    (fun st e => (st.write8 e.1).write8 e.2) stream
  stream.finish_record

/-- The write method of Metadata. -/
def Metadata.write (rec : Metadata) (stream : RecordBuilder) : RecordBuilder :=
  let stream := stream.start_record Opcode.METADATA
  let stream := stream.write_prefixed_string rec.name
  let stream := stream.write4 (metaLen rec.metadata)
  let stream := rec.metadata.foldl
    (fun st kv => (st.write_prefixed_string kv.1).write_prefixed_string kv.2) stream
  stream.finish_record

/-- The write method of MetadataIndex. -/
def MetadataIndex.write (rec : MetadataIndex) (stream : RecordBuilder) : RecordBuilder :=
  let stream := stream.start_record Opcode.METADATA_INDEX
  let stream := stream.write8 rec.offset
  let stream := stream.write8 rec.length
  let stream := stream.write_prefixed_string rec.name
  stream.finish_record

/-- The write method of Schema. -/
def Schema.write (rec : Schema) (stream : RecordBuilder) : RecordBuilder :=
  let stream := stream.start_record Opcode.SCHEMA
  let stream := stream.write2 rec.id
  let stream := stream.write_prefixed_string rec.name
  let stream := stream.write_prefixed_string rec.encoding
  let stream := stream.write4 rec.data.length
  let stream := stream.write rec.data
  stream.finish_record

/-- The write method of Statistics. -/
def Statistics.write (rec : Statistics) (stream : RecordBuilder) : RecordBuilder :=
  let stream := stream.start_record Opcode.STATISTICS
  let stream := stream.write8 rec.message_count
  let stream := stream.write2 rec.schema_count
  let stream := stream.write4 rec.channel_count
  let stream := stream.write4 rec.attachment_count
  let stream := stream.write4 rec.metadata_count
  let stream := stream.write4 rec.chunk_count
  let stream := stream.write8 rec.message_start_time
  let stream := stream.write8 rec.message_end_time
  let stream := stream.write4 (rec.channel_message_counts.length * 10)
  let stream := rec.channel_message_counts.foldl
    (fun st e => (st.write2 e.1).write8 e.2) stream
  stream.finish_record

/-- The write method of SummaryOffset. -/
def SummaryOffset.write (rec : SummaryOffset) (stream : RecordBuilder) : RecordBuilder :=
  let stream := stream.start_record Opcode.SUMMARY_OFFSET
  let stream := stream.write1 rec.group_opcode
  let stream := stream.write8 rec.group_start
  let stream := stream.write8 rec.group_length
  stream.finish_record

/-- The closed sum of the 15 McapRecord subclasses. -/
inductive McapRecord where
  | attachment (rec : Attachment)
  | attachmentIndex (rec : AttachmentIndex)
  | channel (rec : Channel)
  | chunk (rec : Chunk)
  | chunkIndex (rec : ChunkIndex)
  | dataEnd (rec : DataEnd)
  | footer (rec : Footer)
  | header (rec : Header)
  | message (rec : Message)
  | messageIndex (rec : MessageIndex)
  | metadata (rec : Metadata)
  | metadataIndex (rec : MetadataIndex)
  | schema (rec : Schema)
  | statistics (rec : Statistics)
  | summaryOffset (rec : SummaryOffset)
deriving DecidableEq

/-- Dynamic dispatch of the write method over the record variants. -/
def writeRecord : McapRecord → RecordBuilder → RecordBuilder
  | .attachment rec, s => rec.write s
  | .attachmentIndex rec, s => rec.write s
  | .channel rec, s => rec.write s
  | .chunk rec, s => rec.write s
  | .chunkIndex rec, s => rec.write s
  | .dataEnd rec, s => rec.write s
  | .footer rec, s => rec.write s
  | .header rec, s => rec.write s
  | .message rec, s => rec.write s
  | .messageIndex rec, s => rec.write s
  | .metadata rec, s => rec.write s
  | .metadataIndex rec, s => rec.write s
  | .schema rec, s => rec.write s
  | .statistics rec, s => rec.write s
  | .summaryOffset rec, s => rec.write s

/-- Byte sequence emitted by write_prefixed_string for one string value. -/
def pstrBytes (v : String) : List Nat :=
  toLE 4 (utf8Bytes v).length ++ utf8Bytes v

/-- Byte sequence emitted for a metadata map: each pair as two prefixed
strings, in list (insertion) order. -/
def metaBytes (m : List (String × String)) : List Nat :=
  m.foldr (fun kv acc => pstrBytes kv.1 ++ (pstrBytes kv.2 ++ acc)) []

/-- Byte sequence emitted for a list of fixed-width integer pairs, the first
component w1 bytes wide and the second w2 bytes wide. -/
def pairsBytes (w1 w2 : Nat) (ps : List (Nat × Nat)) : List Nat :=
  ps.foldr (fun e acc => toLE w1 e.1 ++ (toLE w2 e.2 ++ acc)) []

/-- Full wire image of one record: a 1-byte opcode, the payload length as an
8-byte little-endian unsigned, then the payload. -/
def mkRecordBytes (op : Nat) (payload : List Nat) : List Nat :=
  toLE 1 op ++ (toLE 8 payload.length ++ payload)

theorem mkRecordBytes_length (op : Nat) (payload : List Nat) :
    (mkRecordBytes op payload).length = 9 + payload.length := by
  simp only [mkRecordBytes, List.length_append, toLE_length]
  omega

theorem bufWrite_at_end (buf data : List Nat) :
    bufWrite buf buf.length data = buf ++ data := by
  simp [bufWrite, List.take_length, List.drop_eq_nil_of_le (Nat.le_add_right _ _)]

theorem bufWrite_patch (buf data : List Nat) (q : Nat) (h : q + data.length ≤ buf.length) :
    bufWrite buf q data = buf.take q ++ data ++ buf.drop (q + data.length) := by
  have hq : q ≤ buf.length := le_trans (Nat.le_add_right _ _) h
  simp [bufWrite, Nat.sub_eq_zero_of_le hq]

theorem write_shape (B d : List Nat) (o : Nat) :
    RecordBuilder.write ⟨B, B.length, o⟩ d = ⟨B ++ d, (B ++ d).length, o⟩ := by
  simp [RecordBuilder.write, bufWrite_at_end, List.length_append]

theorem write1_shape (B : List Nat) (o v : Nat) :
    RecordBuilder.write1 ⟨B, B.length, o⟩ v = ⟨B ++ toLE 1 v, (B ++ toLE 1 v).length, o⟩ := by
  simp only [RecordBuilder.write1, write_shape]

theorem write2_shape (B : List Nat) (o v : Nat) :
    RecordBuilder.write2 ⟨B, B.length, o⟩ v = ⟨B ++ toLE 2 v, (B ++ toLE 2 v).length, o⟩ := by
  simp only [RecordBuilder.write2, write_shape]

theorem write4_shape (B : List Nat) (o v : Nat) :
    RecordBuilder.write4 ⟨B, B.length, o⟩ v = ⟨B ++ toLE 4 v, (B ++ toLE 4 v).length, o⟩ := by
  simp only [RecordBuilder.write4, write_shape]

theorem write8_shape (B : List Nat) (o v : Nat) :
    RecordBuilder.write8 ⟨B, B.length, o⟩ v = ⟨B ++ toLE 8 v, (B ++ toLE 8 v).length, o⟩ := by
  simp only [RecordBuilder.write8, write_shape]

theorem wps_shape (B : List Nat) (o : Nat) (v : String) :
    RecordBuilder.write_prefixed_string ⟨B, B.length, o⟩ v
      = ⟨B ++ pstrBytes v, (B ++ pstrBytes v).length, o⟩ := by
  simp only [RecordBuilder.write_prefixed_string, write4_shape, write_shape]
  simp [pstrBytes, List.append_assoc]

theorem start_record_shape (B : List Nat) (o op : Nat) :
    RecordBuilder.start_record ⟨B, B.length, o⟩ op
      = ⟨B ++ (toLE 1 op ++ toLE 8 0), (B ++ (toLE 1 op ++ toLE 8 0)).length, B.length⟩ := by
  simp only [RecordBuilder.start_record, write_shape]

theorem finish_shape (B P : List Nat) (op : Nat) :
    RecordBuilder.finish_record
        ⟨B ++ (toLE 1 op ++ (toLE 8 0 ++ P)), (B ++ (toLE 1 op ++ (toLE 8 0 ++ P))).length, B.length⟩
      = ⟨B ++ mkRecordBytes op P, (B ++ (toLE 1 op ++ (toLE 8 0 ++ P))).length, B.length⟩ := by
  have hlen : (B ++ (toLE 1 op ++ (toLE 8 0 ++ P))).length = B.length + 9 + P.length := by
    simp only [List.length_append, toLE_length]
    omega
  have hInt : (((B ++ (toLE 1 op ++ (toLE 8 0 ++ P))).length : Int)
      - (B.length : Int) - 9) % (2 : Int) ^ 64 = ((P.length % 2 ^ 64 : Nat) : Int) := by
    rw [hlen]
    push_cast
    have h1 : ((B.length : Int) + 9 + (P.length : Int)) - (B.length : Int) - 9
        = (P.length : Int) := by ring
    rw [h1]
  have hToNat : ((((B ++ (toLE 1 op ++ (toLE 8 0 ++ P))).length : Int)
      - (B.length : Int) - 9) % (2 : Int) ^ 64).toNat = P.length % 2 ^ 64 := by
    rw [hInt, Int.toNat_natCast]
  have hTo : toLE 8 (P.length % 2 ^ 64) = toLE 8 P.length := by
    have h256 : (256 : Nat) ^ 8 = 2 ^ 64 := by norm_num
    rw [← h256, toLE_mod]
  have hassoc : B ++ (toLE 1 op ++ (toLE 8 0 ++ P))
      = ((B ++ toLE 1 op) ++ toLE 8 0) ++ P := by
    simp [List.append_assoc]
  have hq1 : ((B ++ toLE 1 op) : List Nat).length = B.length + 1 := by
    simp [toLE_length]
  have hq9 : (((B ++ toLE 1 op) ++ toLE 8 0) : List Nat).length = B.length + 9 := by
    simp only [List.length_append, toLE_length]
  simp only [RecordBuilder.finish_record, hToNat, hTo]
  have hpatch : bufWrite (B ++ (toLE 1 op ++ (toLE 8 0 ++ P))) (B.length + 1) (toLE 8 P.length)
      = B ++ mkRecordBytes op P := by
    rw [hassoc, bufWrite_patch]
    · rw [List.append_assoc (B ++ toLE 1 op) (toLE 8 0) P]
      rw [List.take_left' (by rw [hq1]), toLE_length]
      have h9 : B.length + 1 + 8 = B.length + 9 := by omega
      rw [h9, ← List.append_assoc (B ++ toLE 1 op) (toLE 8 0) P,
        List.drop_left' (by rw [hq9])]
      simp [mkRecordBytes, List.append_assoc]
    · rw [toLE_length]
      simp only [List.length_append, toLE_length]
      omega
  rw [hpatch]

theorem metaFold_shape (m : List (String × String)) (B : List Nat) (o : Nat) :
    m.foldl (fun (st : RecordBuilder) kv => (st.write_prefixed_string kv.1).write_prefixed_string kv.2)
        ⟨B, B.length, o⟩
      = ⟨B ++ metaBytes m, (B ++ metaBytes m).length, o⟩ := by
  induction m generalizing B with
  | nil => simp [metaBytes]
  | cons kv m ih =>
      simp only [List.foldl_cons, wps_shape, ih, metaBytes, List.foldr_cons]
      simp [List.append_assoc, metaBytes]

theorem pairs28Fold_shape (ps : List (Nat × Nat)) (B : List Nat) (o : Nat) :
    ps.foldl (fun (st : RecordBuilder) e => (st.write2 e.1).write8 e.2) ⟨B, B.length, o⟩
      = ⟨B ++ pairsBytes 2 8 ps, (B ++ pairsBytes 2 8 ps).length, o⟩ := by
  induction ps generalizing B with
  | nil => simp [pairsBytes]
  | cons e ps ih =>
      simp only [List.foldl_cons, write2_shape, write8_shape, ih, pairsBytes, List.foldr_cons]
      simp [List.append_assoc, pairsBytes]

theorem pairs88Fold_shape (ps : List (Nat × Nat)) (B : List Nat) (o : Nat) :
    ps.foldl (fun (st : RecordBuilder) e => (st.write8 e.1).write8 e.2) ⟨B, B.length, o⟩
      = ⟨B ++ pairsBytes 8 8 ps, (B ++ pairsBytes 8 8 ps).length, o⟩ := by
  induction ps generalizing B with
  | nil => simp [pairsBytes]
  | cons e ps ih =>
      simp only [List.foldl_cons, write8_shape, ih, pairsBytes, List.foldr_cons]
      simp [List.append_assoc, pairsBytes]

/-- Payload bytes of the Attachment record up to and including data, i.e.
everything covered by the checksum. -/
def Attachment.coreBytes (rec : Attachment) : List Nat :=
  toLE 8 rec.log_time ++ toLE 8 rec.create_time ++ pstrBytes rec.name ++
    pstrBytes rec.media_type ++ toLE 8 rec.data.length ++ rec.data

/-- Full payload of the Attachment record: the core followed by the CRC-32
of the core. -/
def Attachment.payloadBytes (rec : Attachment) : List Nat :=
  Attachment.coreBytes rec ++ toLE 4 (crc32 (Attachment.coreBytes rec))

def Attachment.recordBytes (rec : Attachment) : List Nat :=
  mkRecordBytes Opcode.ATTACHMENT (Attachment.payloadBytes rec)

def AttachmentIndex.payloadBytes (rec : AttachmentIndex) : List Nat :=
  toLE 8 rec.offset ++ toLE 8 rec.length ++ toLE 8 rec.log_time ++
    toLE 8 rec.create_time ++ toLE 8 rec.data_size ++ pstrBytes rec.name ++
    pstrBytes rec.media_type

def AttachmentIndex.recordBytes (rec : AttachmentIndex) : List Nat :=
  mkRecordBytes Opcode.ATTACHMENT_INDEX (AttachmentIndex.payloadBytes rec)

def Channel.payloadBytes (rec : Channel) : List Nat :=
  toLE 2 rec.id ++ toLE 2 rec.schema_id ++ pstrBytes rec.topic ++
    pstrBytes rec.message_encoding ++ toLE 4 (metaLen rec.metadata) ++
    metaBytes rec.metadata

def Channel.recordBytes (rec : Channel) : List Nat :=
  mkRecordBytes Opcode.CHANNEL (Channel.payloadBytes rec)

def Chunk.payloadBytes (rec : Chunk) : List Nat :=
  toLE 8 rec.message_start_time ++ toLE 8 rec.message_end_time ++
    toLE 8 rec.uncompressed_size ++ toLE 4 rec.uncompressed_crc ++
    pstrBytes rec.compression ++ toLE 8 rec.data.length ++ rec.data

def Chunk.recordBytes (rec : Chunk) : List Nat :=
  mkRecordBytes Opcode.CHUNK (Chunk.payloadBytes rec)

def ChunkIndex.payloadBytes (rec : ChunkIndex) : List Nat :=
  toLE 8 rec.message_start_time ++ toLE 8 rec.message_end_time ++
    toLE 8 rec.chunk_start_offset ++ toLE 8 rec.chunk_length ++
    toLE 4 (rec.message_index_offsets.length * 10) ++
    pairsBytes 2 8 rec.message_index_offsets ++
    toLE 8 rec.message_index_length ++ pstrBytes rec.compression ++
    toLE 8 rec.compressed_size ++ toLE 8 rec.uncompressed_size

def ChunkIndex.recordBytes (rec : ChunkIndex) : List Nat :=
  mkRecordBytes Opcode.CHUNK_INDEX (ChunkIndex.payloadBytes rec)

def DataEnd.payloadBytes (rec : DataEnd) : List Nat :=
  toLE 4 rec.data_section_crc

def DataEnd.recordBytes (rec : DataEnd) : List Nat :=
  mkRecordBytes Opcode.DATA_END (DataEnd.payloadBytes rec)

def Footer.payloadBytes (rec : Footer) : List Nat :=
  toLE 8 rec.summary_start ++ toLE 8 rec.summary_offset_start ++
    toLE 4 rec.summary_crc

def Footer.recordBytes (rec : Footer) : List Nat :=
  mkRecordBytes Opcode.FOOTER (Footer.payloadBytes rec)

def Header.payloadBytes (rec : Header) : List Nat :=
  pstrBytes rec.profile ++ pstrBytes rec.library

def Header.recordBytes (rec : Header) : List Nat :=
  mkRecordBytes Opcode.HEADER (Header.payloadBytes rec)

def Message.payloadBytes (rec : Message) : List Nat :=
  toLE 2 rec.channel_id ++ toLE 4 rec.sequence ++ toLE 8 rec.log_time ++
    toLE 8 rec.publish_time ++ rec.data

def Message.recordBytes (rec : Message) : List Nat :=
  mkRecordBytes Opcode.MESSAGE (Message.payloadBytes rec)

def MessageIndex.payloadBytes (rec : MessageIndex) : List Nat :=
  toLE 2 rec.channel_id ++ toLE 4 (rec.records.length * 16) ++
    pairsBytes 8 8 rec.records

def MessageIndex.recordBytes (rec : MessageIndex) : List Nat :=
  mkRecordBytes Opcode.MESSAGE_INDEX (MessageIndex.payloadBytes rec)

def Metadata.payloadBytes (rec : Metadata) : List Nat :=
  pstrBytes rec.name ++ toLE 4 (metaLen rec.metadata) ++ metaBytes rec.metadata

def Metadata.recordBytes (rec : Metadata) : List Nat :=
  mkRecordBytes Opcode.METADATA (Metadata.payloadBytes rec)

def MetadataIndex.payloadBytes (rec : MetadataIndex) : List Nat :=
  toLE 8 rec.offset ++ toLE 8 rec.length ++ pstrBytes rec.name

def MetadataIndex.recordBytes (rec : MetadataIndex) : List Nat :=
  mkRecordBytes Opcode.METADATA_INDEX (MetadataIndex.payloadBytes rec)

def Schema.payloadBytes (rec : Schema) : List Nat :=
  toLE 2 rec.id ++ pstrBytes rec.name ++ pstrBytes rec.encoding ++
    toLE 4 rec.data.length ++ rec.data

def Schema.recordBytes (rec : Schema) : List Nat :=
  mkRecordBytes Opcode.SCHEMA (Schema.payloadBytes rec)

def Statistics.payloadBytes (rec : Statistics) : List Nat :=
  toLE 8 rec.message_count ++ toLE 2 rec.schema_count ++
    toLE 4 rec.channel_count ++ toLE 4 rec.attachment_count ++
    toLE 4 rec.metadata_count ++ toLE 4 rec.chunk_count ++
    toLE 8 rec.message_start_time ++ toLE 8 rec.message_end_time ++
    toLE 4 (rec.channel_message_counts.length * 10) ++
    pairsBytes 2 8 rec.channel_message_counts

def Statistics.recordBytes (rec : Statistics) : List Nat :=
  mkRecordBytes Opcode.STATISTICS (Statistics.payloadBytes rec)

def SummaryOffset.payloadBytes (rec : SummaryOffset) : List Nat :=
  toLE 1 rec.group_opcode ++ toLE 8 rec.group_start ++ toLE 8 rec.group_length

def SummaryOffset.recordBytes (rec : SummaryOffset) : List Nat :=
  mkRecordBytes Opcode.SUMMARY_OFFSET (SummaryOffset.payloadBytes rec)

theorem footer_write_shape (rec : Footer) (B : List Nat) (o : Nat) :
    rec.write ⟨B, B.length, o⟩
      = ⟨B ++ Footer.recordBytes rec, (B ++ Footer.recordBytes rec).length, B.length⟩ := by
  simp only [Footer.write, start_record_shape, write8_shape, write4_shape, List.append_assoc]
  rw [finish_shape]
  simp [Footer.recordBytes, Footer.payloadBytes, mkRecordBytes, toLE_length,
    List.append_assoc]

theorem attachmentIndex_write_shape (rec : AttachmentIndex) (B : List Nat) (o : Nat) :
    rec.write ⟨B, B.length, o⟩
      = ⟨B ++ AttachmentIndex.recordBytes rec,
          (B ++ AttachmentIndex.recordBytes rec).length, B.length⟩ := by
  simp only [AttachmentIndex.write, start_record_shape, write8_shape, wps_shape,
    List.append_assoc]
  rw [finish_shape]
  simp [AttachmentIndex.recordBytes, AttachmentIndex.payloadBytes, mkRecordBytes,
    toLE_length, List.append_assoc]

theorem channel_write_shape (rec : Channel) (B : List Nat) (o : Nat) :
    rec.write ⟨B, B.length, o⟩
      = ⟨B ++ Channel.recordBytes rec, (B ++ Channel.recordBytes rec).length, B.length⟩ := by
  simp only [Channel.write, start_record_shape, write2_shape, wps_shape, write4_shape,
    metaFold_shape, List.append_assoc]
  rw [finish_shape]
  simp [Channel.recordBytes, Channel.payloadBytes, mkRecordBytes, toLE_length,
    List.append_assoc]

theorem chunk_write_shape (rec : Chunk) (B : List Nat) (o : Nat) :
    rec.write ⟨B, B.length, o⟩
      = ⟨B ++ Chunk.recordBytes rec, (B ++ Chunk.recordBytes rec).length, B.length⟩ := by
  simp only [Chunk.write, start_record_shape, write8_shape, write4_shape, wps_shape]
  simp only [Mcap.write_shape]
  simp only [List.append_assoc]
  rw [finish_shape]
  simp [Chunk.recordBytes, Chunk.payloadBytes, mkRecordBytes, toLE_length,
    List.append_assoc]

theorem chunkIndex_write_shape (rec : ChunkIndex) (B : List Nat) (o : Nat) :
    rec.write ⟨B, B.length, o⟩
      = ⟨B ++ ChunkIndex.recordBytes rec,
          (B ++ ChunkIndex.recordBytes rec).length, B.length⟩ := by
  simp only [ChunkIndex.write, start_record_shape, write8_shape, write4_shape, wps_shape,
    pairs28Fold_shape, List.append_assoc]
  rw [finish_shape]
  simp [ChunkIndex.recordBytes, ChunkIndex.payloadBytes, mkRecordBytes, toLE_length,
    List.append_assoc]

theorem dataEnd_write_shape (rec : DataEnd) (B : List Nat) (o : Nat) :
    rec.write ⟨B, B.length, o⟩
      = ⟨B ++ DataEnd.recordBytes rec, (B ++ DataEnd.recordBytes rec).length, B.length⟩ := by
  simp only [DataEnd.write, start_record_shape, write4_shape, List.append_assoc]
  rw [finish_shape]
  simp [DataEnd.recordBytes, DataEnd.payloadBytes, mkRecordBytes, toLE_length,
    List.append_assoc]

theorem header_write_shape (rec : Header) (B : List Nat) (o : Nat) :
    rec.write ⟨B, B.length, o⟩
      = ⟨B ++ Header.recordBytes rec, (B ++ Header.recordBytes rec).length, B.length⟩ := by
  simp only [Header.write, start_record_shape, wps_shape, List.append_assoc]
  rw [finish_shape]
  simp [Header.recordBytes, Header.payloadBytes, mkRecordBytes, toLE_length,
    List.append_assoc]

theorem message_write_shape (rec : Message) (B : List Nat) (o : Nat) :
    rec.write ⟨B, B.length, o⟩
      = ⟨B ++ Message.recordBytes rec, (B ++ Message.recordBytes rec).length, B.length⟩ := by
  simp only [Message.write, start_record_shape, write2_shape, write4_shape, write8_shape]
  simp only [Mcap.write_shape]
  simp only [List.append_assoc]
  rw [finish_shape]
  simp [Message.recordBytes, Message.payloadBytes, mkRecordBytes, toLE_length,
    List.append_assoc]

theorem messageIndex_write_shape (rec : MessageIndex) (B : List Nat) (o : Nat) :
    rec.write ⟨B, B.length, o⟩
      = ⟨B ++ MessageIndex.recordBytes rec,
          (B ++ MessageIndex.recordBytes rec).length, B.length⟩ := by
  simp only [MessageIndex.write, start_record_shape, write2_shape, write4_shape,
    pairs88Fold_shape, List.append_assoc]
  rw [finish_shape]
  simp [MessageIndex.recordBytes, MessageIndex.payloadBytes, mkRecordBytes, toLE_length,
    List.append_assoc]

theorem metadata_write_shape (rec : Metadata) (B : List Nat) (o : Nat) :
    rec.write ⟨B, B.length, o⟩
      = ⟨B ++ Metadata.recordBytes rec, (B ++ Metadata.recordBytes rec).length, B.length⟩ := by
  simp only [Metadata.write, start_record_shape, wps_shape, write4_shape, metaFold_shape,
    List.append_assoc]
  rw [finish_shape]
  simp [Metadata.recordBytes, Metadata.payloadBytes, mkRecordBytes, toLE_length,
    List.append_assoc]

theorem metadataIndex_write_shape (rec : MetadataIndex) (B : List Nat) (o : Nat) :
    rec.write ⟨B, B.length, o⟩
      = ⟨B ++ MetadataIndex.recordBytes rec,
          (B ++ MetadataIndex.recordBytes rec).length, B.length⟩ := by
  simp only [MetadataIndex.write, start_record_shape, write8_shape, wps_shape,
    List.append_assoc]
  rw [finish_shape]
  simp [MetadataIndex.recordBytes, MetadataIndex.payloadBytes, mkRecordBytes, toLE_length,
    List.append_assoc]

theorem schema_write_shape (rec : Schema) (B : List Nat) (o : Nat) :
    rec.write ⟨B, B.length, o⟩
      = ⟨B ++ Schema.recordBytes rec, (B ++ Schema.recordBytes rec).length, B.length⟩ := by
  simp only [Schema.write, start_record_shape, write2_shape, wps_shape, write4_shape]
  simp only [Mcap.write_shape]
  simp only [List.append_assoc]
  rw [finish_shape]
  simp [Schema.recordBytes, Schema.payloadBytes, mkRecordBytes, toLE_length,
    List.append_assoc]

theorem statistics_write_shape (rec : Statistics) (B : List Nat) (o : Nat) :
    rec.write ⟨B, B.length, o⟩
      = ⟨B ++ Statistics.recordBytes rec,
          (B ++ Statistics.recordBytes rec).length, B.length⟩ := by
  simp only [Statistics.write, start_record_shape, write8_shape, write2_shape, write4_shape,
    pairs28Fold_shape, List.append_assoc]
  rw [finish_shape]
  simp [Statistics.recordBytes, Statistics.payloadBytes, mkRecordBytes, toLE_length,
    List.append_assoc]

theorem summaryOffset_write_shape (rec : SummaryOffset) (B : List Nat) (o : Nat) :
    rec.write ⟨B, B.length, o⟩
      = ⟨B ++ SummaryOffset.recordBytes rec,
          (B ++ SummaryOffset.recordBytes rec).length, B.length⟩ := by
  simp only [SummaryOffset.write, start_record_shape, write1_shape, write8_shape,
    List.append_assoc]
  rw [finish_shape]
  simp [SummaryOffset.recordBytes, SummaryOffset.payloadBytes, mkRecordBytes, toLE_length,
    List.append_assoc]

theorem front_take (H C T : List Nat) (hT : T.length = 4) :
    (H ++ (C ++ T)).take ((H ++ (C ++ T)).length - 4) = H ++ C := by
  have h : H ++ (C ++ T) = (H ++ C) ++ T := by simp [List.append_assoc]
  have hn : (H ++ C).length = ((H ++ C) ++ T).length - 4 := by
    simp only [List.length_append, hT]
    omega
  rw [h, List.take_left' hn]

theorem slice_take (H C T : List Nat) (hH : H.length = 9) (hT : T.length = 4) :
    ((H ++ (C ++ T)).drop 9).take ((H ++ (C ++ T)).length - 13) = C := by
  rw [List.drop_left' hH]
  have hn : C.length = (H ++ (C ++ T)).length - 13 := by
    simp only [List.length_append, hH, hT]
    omega
  rw [List.take_left' hn]

theorem attachment_private (rec : Attachment) :
    (((((((((RecordBuilder.init.start_record Opcode.ATTACHMENT).write8
      rec.log_time).write8 rec.create_time).write_prefixed_string
      rec.name).write_prefixed_string rec.media_type).write8
      rec.data.length).write rec.data).write4 0).finish_record).endBuffer.1
      = mkRecordBytes Opcode.ATTACHMENT (Attachment.coreBytes rec ++ toLE 4 0) := by
  have hinit : RecordBuilder.init = (⟨[], ([] : List Nat).length, 0⟩ : RecordBuilder) := rfl
  rw [hinit]
  simp only [start_record_shape, write8_shape, wps_shape]
  simp only [Mcap.write_shape]
  simp only [write4_shape]
  simp only [List.append_assoc]
  rw [finish_shape]
  simp [RecordBuilder.endBuffer, mkRecordBytes, Attachment.coreBytes, toLE_length,
    List.append_assoc]

theorem attachment_write_shape (rec : Attachment) (B : List Nat) (o : Nat) :
    rec.write ⟨B, B.length, o⟩
      = ⟨B ++ Attachment.recordBytes rec, (B ++ Attachment.recordBytes rec).length, o⟩ := by
  have hH : ((toLE 1 Opcode.ATTACHMENT
      ++ toLE 8 (Attachment.coreBytes rec ++ toLE 4 0).length) : List Nat).length = 9 := by
    simp [toLE_length]
  have hT : ((toLE 4 0) : List Nat).length = 4 := by
    simp [toLE_length]
  have hD : mkRecordBytes Opcode.ATTACHMENT (Attachment.coreBytes rec ++ toLE 4 0)
      = (toLE 1 Opcode.ATTACHMENT ++ toLE 8 (Attachment.coreBytes rec ++ toLE 4 0).length)
        ++ (Attachment.coreBytes rec ++ toLE 4 0) := by
    simp [mkRecordBytes, List.append_assoc]
  simp only [Attachment.write]
  rw [attachment_private, hD, front_take _ _ _ hT, slice_take _ _ _ hH hT,
    Mcap.write_shape, write4_shape]
  simp [Attachment.recordBytes, Attachment.payloadBytes, mkRecordBytes, toLE_length,
    List.append_assoc]

/-- The opcode a record variant is written with. -/
def opcodeOf : McapRecord → Nat
  | .attachment _ => Opcode.ATTACHMENT
  | .attachmentIndex _ => Opcode.ATTACHMENT_INDEX
  | .channel _ => Opcode.CHANNEL
  | .chunk _ => Opcode.CHUNK
  | .chunkIndex _ => Opcode.CHUNK_INDEX
  | .dataEnd _ => Opcode.DATA_END
  | .footer _ => Opcode.FOOTER
  | .header _ => Opcode.HEADER
  | .message _ => Opcode.MESSAGE
  | .messageIndex _ => Opcode.MESSAGE_INDEX
  | .metadata _ => Opcode.METADATA
  | .metadataIndex _ => Opcode.METADATA_INDEX
  | .schema _ => Opcode.SCHEMA
  | .statistics _ => Opcode.STATISTICS
  | .summaryOffset _ => Opcode.SUMMARY_OFFSET

/-- The payload bytes a record variant emits. -/
def payloadOf : McapRecord → List Nat
  | .attachment rec => Attachment.payloadBytes rec
  | .attachmentIndex rec => AttachmentIndex.payloadBytes rec
  | .channel rec => Channel.payloadBytes rec
  | .chunk rec => Chunk.payloadBytes rec
  | .chunkIndex rec => ChunkIndex.payloadBytes rec
  | .dataEnd rec => DataEnd.payloadBytes rec
  | .footer rec => Footer.payloadBytes rec
  | .header rec => Header.payloadBytes rec
  | .message rec => Message.payloadBytes rec
  | .messageIndex rec => MessageIndex.payloadBytes rec
  | .metadata rec => Metadata.payloadBytes rec
  | .metadataIndex rec => MetadataIndex.payloadBytes rec
  | .schema rec => Schema.payloadBytes rec
  | .statistics rec => Statistics.payloadBytes rec
  | .summaryOffset rec => SummaryOffset.payloadBytes rec

/-- The full wire image of a record variant. -/
def recordBytesOf (rec : McapRecord) : List Nat :=
  mkRecordBytes (opcodeOf rec) (payloadOf rec)

theorem writeRecord_shape (rec : McapRecord) (B : List Nat) (o : Nat) :
    (writeRecord rec ⟨B, B.length, o⟩).buffer = B ++ recordBytesOf rec
    ∧ (writeRecord rec ⟨B, B.length, o⟩).pos = (B ++ recordBytesOf rec).length := by
  cases rec <;>
    simp [writeRecord, opcodeOf, payloadOf, recordBytesOf,
      attachment_write_shape, attachmentIndex_write_shape, channel_write_shape,
      chunk_write_shape, chunkIndex_write_shape, dataEnd_write_shape,
      footer_write_shape, header_write_shape, message_write_shape,
      messageIndex_write_shape, metadata_write_shape, metadataIndex_write_shape,
      schema_write_shape, statistics_write_shape, summaryOffset_write_shape,
      Attachment.recordBytes, AttachmentIndex.recordBytes, Channel.recordBytes,
      Chunk.recordBytes, ChunkIndex.recordBytes, DataEnd.recordBytes,
      Footer.recordBytes, Header.recordBytes, Message.recordBytes,
      MessageIndex.recordBytes, Metadata.recordBytes, MetadataIndex.recordBytes,
      Schema.recordBytes, Statistics.recordBytes, SummaryOffset.recordBytes]

theorem writeRecord_append (rec : McapRecord) {s : RecordBuilder}
    (hp : s.pos = s.buffer.length) :
    (writeRecord rec s).buffer = s.buffer ++ recordBytesOf rec
    ∧ (writeRecord rec s).pos = (writeRecord rec s).buffer.length := by
  obtain ⟨B, p, o⟩ := s
  have hp2 : p = B.length := hp
  subst hp2
  have h := writeRecord_shape rec B o
  exact ⟨h.1, by rw [h.2, h.1]⟩

/-- Independent decoder primitive: read a w-byte little-endian unsigned and
return it with the remaining bytes. -/
def readU (w : Nat) (l : List Nat) : Option (Nat × List Nat) :=
  if w ≤ l.length then some (fromLE (l.take w), l.drop w) else none

/-- Independent decoder primitive: read exactly n raw bytes. -/
def readBytesN (n : Nat) (l : List Nat) : Option (List Nat × List Nat) :=
  if n ≤ l.length then some (l.take n, l.drop n) else none

/-- Byte-literal decoding of one UTF-8 sequence at the head of a byte list,
rejecting malformed, overlong, surrogate and out-of-range sequences. -/
def utf8DecodeOne : List Nat → Option (Char × List Nat)
  | [] => none
  | b :: rest =>
    if b < 0x80 then
      some (Char.ofNat b, rest)
    else if b < 0xC2 then none
    else if b < 0xE0 then
      match rest with
      | b2 :: rest2 =>
        if 0x80 ≤ b2 ∧ b2 < 0xC0 then
          some (Char.ofNat ((b - 0xC0) * 64 + (b2 - 0x80)), rest2)
        else none
      | [] => none
    else if b < 0xF0 then
      match rest with
      | b2 :: b3 :: rest3 =>
        if 0x80 ≤ b2 ∧ b2 < 0xC0 ∧ 0x80 ≤ b3 ∧ b3 < 0xC0 then
          let v := (b - 0xE0) * 4096 + (b2 - 0x80) * 64 + (b3 - 0x80)
          if 0x800 ≤ v ∧ ¬(0xD800 ≤ v ∧ v < 0xE000) then
            some (Char.ofNat v, rest3)
          else none
        else none
      | _ => none
    else if b < 0xF5 then
      match rest with
      | b2 :: b3 :: b4 :: rest4 =>
        if 0x80 ≤ b2 ∧ b2 < 0xC0 ∧ 0x80 ≤ b3 ∧ b3 < 0xC0 ∧ 0x80 ≤ b4 ∧ b4 < 0xC0 then
          let v := (b - 0xF0) * 262144 + (b2 - 0x80) * 4096 + (b3 - 0x80) * 64 + (b4 - 0x80)
          if 0x10000 ≤ v ∧ v < 0x110000 then
            some (Char.ofNat v, rest4)
          else none
        else none
      | _ => none
    else none

/-- Byte-literal UTF-8 decoding of a whole byte region into scalar values;
the fuel bounds the number of decoded characters. -/
def utf8DecodeList (fuel : Nat) (l : List Nat) : Option (List Char) :=
  if l = [] then some []
  else
    match fuel with
    | 0 => none
    | f + 1 =>
      match utf8DecodeOne l with
      | some (c, r) => (utf8DecodeList f r).map (fun cs => c :: cs)
      | none => none

/-- Byte-literal UTF-8 decoding into a string. -/
def utf8Decode (l : List Nat) : Option String :=
  (utf8DecodeList l.length l).map (fun cs => String.mk cs)

/-- Independent decoder primitive: a 4-byte length prefix followed by that
many UTF-8 bytes. -/
def readStr (l : List Nat) : Option (String × List Nat) :=
  match readU 4 l with
  | some (n, r) =>
    match readBytesN n r with
    | some (bs, r2) =>
      match utf8Decode bs with
      | some s => some (s, r2)
      | none => none
    | none => none
  | none => none

/-- Independent decoder primitive: parse a byte region into key/value string
pairs until it is exhausted (the fuel bounds the number of pairs). -/
def readStrPairs (fuel : Nat) (l : List Nat) : Option (List (String × String)) :=
  if l = [] then some []
  else
    match fuel with
    | 0 => none
    | f + 1 =>
      match readStr l with
      | some (k, r) =>
        match readStr r with
        | some (v, r2) =>
          match readStrPairs f r2 with
          | some ps => some ((k, v) :: ps)
          | none => none
        | none => none
      | none => none

/-- Independent decoder primitive: parse a byte region into fixed-width
integer pairs (w1 bytes then w2 bytes each) until it is exhausted. -/
def readNatPairs (w1 w2 : Nat) (fuel : Nat) (l : List Nat) : Option (List (Nat × Nat)) :=
  if l = [] then some []
  else
    match fuel with
    | 0 => none
    | f + 1 =>
      match readU w1 l with
      | some (x, r) =>
        match readU w2 r with
        | some (y, r2) =>
          match readNatPairs w1 w2 f r2 with
          | some ps => some ((x, y) :: ps)
          | none => none
        | none => none
      | none => none

/-- Independent payload decoder for Attachment, following the layout table;
the trailing 4-byte checksum field is consumed but not a record field. -/
def decodeAttachmentPayload (l : List Nat) : Option Attachment :=
  match readU 8 l with
  | some (lt, r1) =>
    match readU 8 r1 with
    | some (ct, r2) =>
      match readStr r2 with
      | some (nm, r3) =>
        match readStr r3 with
        | some (mt, r4) =>
          match readU 8 r4 with
          | some (dlen, r5) =>
            match readBytesN dlen r5 with
            | some (d, r6) =>
              match readU 4 r6 with
              | some (_, r7) =>
                if r7 = [] then
                  some { create_time := ct, log_time := lt, name := nm,
                         media_type := mt, data := d }
                else none
              | none => none
            | none => none
          | none => none
        | none => none
      | none => none
    | none => none
  | none => none

/-- Independent payload decoder for AttachmentIndex. -/
def decodeAttachmentIndexPayload (l : List Nat) : Option AttachmentIndex :=
  match readU 8 l with
  | some (off, r1) =>
    match readU 8 r1 with
    | some (len, r2) =>
      match readU 8 r2 with
      | some (lt, r3) =>
        match readU 8 r3 with
        | some (ct, r4) =>
          match readU 8 r4 with
          | some (ds, r5) =>
            match readStr r5 with
            | some (nm, r6) =>
              match readStr r6 with
              | some (mt, r7) =>
                if r7 = [] then some ⟨off, len, lt, ct, ds, nm, mt⟩ else none
              | none => none
            | none => none
          | none => none
        | none => none
      | none => none
    | none => none
  | none => none

/-- Independent payload decoder for Channel. -/
def decodeChannelPayload (l : List Nat) : Option Channel :=
  match readU 2 l with
  | some (cid, r1) =>
    match readU 2 r1 with
    | some (sid, r2) =>
      match readStr r2 with
      | some (tp, r3) =>
        match readStr r3 with
        | some (enc, r4) =>
          match readU 4 r4 with
          | some (mlen, r5) =>
            match readBytesN mlen r5 with
            | some (mb, r6) =>
              match readStrPairs mb.length mb with
              | some m =>
                if r6 = [] then
                  some { id := cid, topic := tp, message_encoding := enc,
                         metadata := m, schema_id := sid }
                else none
              | none => none
            | none => none
          | none => none
        | none => none
      | none => none
    | none => none
  | none => none

/-- Independent payload decoder for Chunk. -/
def decodeChunkPayload (l : List Nat) : Option Chunk :=
  match readU 8 l with
  | some (mst, r1) =>
    match readU 8 r1 with
    | some (met, r2) =>
      match readU 8 r2 with
      | some (usize, r3) =>
        match readU 4 r3 with
        | some (ucrc, r4) =>
          match readStr r4 with
          | some (comp, r5) =>
            match readU 8 r5 with
            | some (dlen, r6) =>
              match readBytesN dlen r6 with
              | some (d, r7) =>
                if r7 = [] then
                  some { compression := comp, data := d, message_end_time := met,
                         message_start_time := mst, uncompressed_crc := ucrc,
                         uncompressed_size := usize }
                else none
              | none => none
            | none => none
          | none => none
        | none => none
      | none => none
    | none => none
  | none => none

/-- Independent payload decoder for ChunkIndex. -/
def decodeChunkIndexPayload (l : List Nat) : Option ChunkIndex :=
  match readU 8 l with
  | some (mst, r1) =>
    match readU 8 r1 with
    | some (met, r2) =>
      match readU 8 r2 with
      | some (cso, r3) =>
        match readU 8 r3 with
        | some (clen, r4) =>
          match readU 4 r4 with
          | some (blen, r5) =>
            match readBytesN blen r5 with
            | some (ob, r6) =>
              match readNatPairs 2 8 ob.length ob with
              | some offs =>
                match readU 8 r6 with
                | some (mil, r7) =>
                  match readStr r7 with
                  | some (comp, r8) =>
                    match readU 8 r8 with
                    | some (csize, r9) =>
                      match readU 8 r9 with
                      | some (usize, r10) =>
                        if r10 = [] then
                          some { chunk_length := clen, chunk_start_offset := cso,
                                 compression := comp, compressed_size := csize,
                                 message_end_time := met, message_index_length := mil,
                                 message_index_offsets := offs,
                                 message_start_time := mst, uncompressed_size := usize }
                        else none
                      | none => none
                    | none => none
                  | none => none
                | none => none
              | none => none
            | none => none
          | none => none
        | none => none
      | none => none
    | none => none
  | none => none

/-- Independent payload decoder for DataEnd. -/
def decodeDataEndPayload (l : List Nat) : Option DataEnd :=
  match readU 4 l with
  | some (crc, r1) => if r1 = [] then some ⟨crc⟩ else none
  | none => none

/-- Independent payload decoder for Footer. -/
def decodeFooterPayload (l : List Nat) : Option Footer :=
  match readU 8 l with
  | some (ss, r1) =>
    match readU 8 r1 with
    | some (sos, r2) =>
      match readU 4 r2 with
      | some (scrc, r3) => if r3 = [] then some ⟨ss, sos, scrc⟩ else none
      | none => none
    | none => none
  | none => none

/-- Independent payload decoder for Header. -/
def decodeHeaderPayload (l : List Nat) : Option Header :=
  match readStr l with
  | some (profile, r1) =>
    match readStr r1 with
    | some (library, r2) => if r2 = [] then some ⟨profile, library⟩ else none
    | none => none
  | none => none

/-- Independent payload decoder for Message; the data field has no length
prefix and consumes the remainder of the record. -/
def decodeMessagePayload (l : List Nat) : Option Message :=
  match readU 2 l with
  | some (cid, r1) =>
    match readU 4 r1 with
    | some (seq, r2) =>
      match readU 8 r2 with
      | some (lt, r3) =>
        match readU 8 r3 with
        | some (pt, r4) =>
          some { channel_id := cid, log_time := lt, data := r4,
                 publish_time := pt, sequence := seq }
        | none => none
      | none => none
    | none => none
  | none => none

/-- Independent payload decoder for MessageIndex. -/
def decodeMessageIndexPayload (l : List Nat) : Option MessageIndex :=
  match readU 2 l with
  | some (cid, r1) =>
    match readU 4 r1 with
    | some (blen, r2) =>
      match readBytesN blen r2 with
      | some (eb, r3) =>
        match readNatPairs 8 8 eb.length eb with
        | some entries => if r3 = [] then some ⟨cid, entries⟩ else none
        | none => none
      | none => none
    | none => none
  | none => none

/-- Independent payload decoder for Metadata. -/
def decodeMetadataPayload (l : List Nat) : Option Metadata :=
  match readStr l with
  | some (nm, r1) =>
    match readU 4 r1 with
    | some (mlen, r2) =>
      match readBytesN mlen r2 with
      | some (mb, r3) =>
        match readStrPairs mb.length mb with
        | some m => if r3 = [] then some ⟨nm, m⟩ else none
        | none => none
      | none => none
    | none => none
  | none => none

/-- Independent payload decoder for MetadataIndex. -/
def decodeMetadataIndexPayload (l : List Nat) : Option MetadataIndex :=
  match readU 8 l with
  | some (off, r1) =>
    match readU 8 r1 with
    | some (len, r2) =>
      match readStr r2 with
      | some (nm, r3) => if r3 = [] then some ⟨off, len, nm⟩ else none
      | none => none
    | none => none
  | none => none

/-- Independent payload decoder for Schema. -/
def decodeSchemaPayload (l : List Nat) : Option Schema :=
  match readU 2 l with
  | some (sid, r1) =>
    match readStr r1 with
    | some (nm, r2) =>
      match readStr r2 with
      | some (enc, r3) =>
        match readU 4 r3 with
        | some (dlen, r4) =>
          match readBytesN dlen r4 with
          | some (d, r5) =>
            if r5 = [] then
              some { id := sid, data := d, encoding := enc, name := nm }
            else none
          | none => none
        | none => none
      | none => none
    | none => none
  | none => none

/-- Independent payload decoder for Statistics. -/
def decodeStatisticsPayload (l : List Nat) : Option Statistics :=
  match readU 8 l with
  | some (mc, r1) =>
    match readU 2 r1 with
    | some (sc, r2) =>
      match readU 4 r2 with
      | some (cc, r3) =>
        match readU 4 r3 with
        | some (ac, r4) =>
          match readU 4 r4 with
          | some (mdc, r5) =>
            match readU 4 r5 with
            | some (chc, r6) =>
              match readU 8 r6 with
              | some (mst, r7) =>
                match readU 8 r7 with
                | some (met, r8) =>
                  match readU 4 r8 with
                  | some (blen, r9) =>
                    match readBytesN blen r9 with
                    | some (cb, r10) =>
                      match readNatPairs 2 8 cb.length cb with
                      | some counts =>
                        if r10 = [] then
                          some { attachment_count := ac, channel_count := cc,
                                 channel_message_counts := counts, chunk_count := chc,
                                 message_count := mc, message_end_time := met,
                                 message_start_time := mst, metadata_count := mdc,
                                 schema_count := sc }
                        else none
                      | none => none
                    | none => none
                  | none => none
                | none => none
              | none => none
            | none => none
          | none => none
        | none => none
      | none => none
    | none => none
  | none => none

/-- Independent payload decoder for SummaryOffset. -/
def decodeSummaryOffsetPayload (l : List Nat) : Option SummaryOffset :=
  match readU 1 l with
  | some (gop, r1) =>
    match readU 8 r1 with
    | some (gs, r2) =>
      match readU 8 r2 with
      | some (gl, r3) => if r3 = [] then some ⟨gop, gs, gl⟩ else none
      | none => none
    | none => none
  | none => none

/-- Dispatch the per-kind payload decoders over the opcode byte. -/
def decodePayload (op : Nat) (l : List Nat) : Option McapRecord :=
  if op = Opcode.HEADER then (decodeHeaderPayload l).map .header
  else if op = Opcode.FOOTER then (decodeFooterPayload l).map .footer
  else if op = Opcode.SCHEMA then (decodeSchemaPayload l).map .schema
  else if op = Opcode.CHANNEL then (decodeChannelPayload l).map .channel
  else if op = Opcode.MESSAGE then (decodeMessagePayload l).map .message
  else if op = Opcode.CHUNK then (decodeChunkPayload l).map .chunk
  else if op = Opcode.MESSAGE_INDEX then (decodeMessageIndexPayload l).map .messageIndex
  else if op = Opcode.CHUNK_INDEX then (decodeChunkIndexPayload l).map .chunkIndex
  else if op = Opcode.ATTACHMENT then (decodeAttachmentPayload l).map .attachment
  else if op = Opcode.ATTACHMENT_INDEX then
    (decodeAttachmentIndexPayload l).map .attachmentIndex
  else if op = Opcode.STATISTICS then (decodeStatisticsPayload l).map .statistics
  else if op = Opcode.METADATA then (decodeMetadataPayload l).map .metadata
  else if op = Opcode.METADATA_INDEX then (decodeMetadataIndexPayload l).map .metadataIndex
  else if op = Opcode.SUMMARY_OFFSET then (decodeSummaryOffsetPayload l).map .summaryOffset
  else if op = Opcode.DATA_END then (decodeDataEndPayload l).map .dataEnd
  else none

/-- Independent record decoder: a 1-byte opcode, an 8-byte little-endian
length that must equal the number of remaining bytes, then the payload. -/
def decodeRecord (l : List Nat) : Option McapRecord :=
  match l with
  | op :: rest =>
    match readU 8 rest with
    | some (n, payload) =>
      if payload.length = n then decodePayload op payload else none
    | none => none
  | [] => none

theorem readU_toLE {w v : Nat} (r : List Nat) (h : v < 256 ^ w) :
    readU w (toLE w v ++ r) = some (v, r) := by
  have hl : (toLE w v).length = w := toLE_length w v
  unfold readU
  rw [if_pos]
  · rw [List.take_left' hl, List.drop_left' hl, fromLE_toLE_of_lt h]
  · rw [List.length_append, hl]
    omega

theorem readU1_toLE {v : Nat} (r : List Nat) (h : v < 2 ^ 8) :
    readU 1 (toLE 1 v ++ r) = some (v, r) :=
  readU_toLE r (by norm_num at h ⊢; omega)

theorem readU2_toLE {v : Nat} (r : List Nat) (h : v < 2 ^ 16) :
    readU 2 (toLE 2 v ++ r) = some (v, r) :=
  readU_toLE r (by norm_num at h ⊢; omega)

theorem readU4_toLE {v : Nat} (r : List Nat) (h : v < 2 ^ 32) :
    readU 4 (toLE 4 v ++ r) = some (v, r) :=
  readU_toLE r (by norm_num at h ⊢; omega)

theorem readU8_toLE {v : Nat} (r : List Nat) (h : v < 2 ^ 64) :
    readU 8 (toLE 8 v ++ r) = some (v, r) :=
  readU_toLE r (by norm_num at h ⊢; omega)

theorem readBytesN_exact (bs r : List Nat) :
    readBytesN bs.length (bs ++ r) = some (bs, r) := by
  unfold readBytesN
  rw [if_pos]
  · rw [List.take_left' rfl, List.drop_left' rfl]
  · rw [List.length_append]
    omega

theorem char_valid_nat (c : Char) : Nat.isValidChar c.toNat := c.valid

theorem utf8DecodeOne_encode (c : Char) (rest : List Nat) :
    utf8DecodeOne (utf8EncodeCharM c ++ rest) = some (c, rest) := by
  have hv := char_valid_nat c
  have hcc : Char.ofNat c.toNat = c := Char.ofNat_toNat c
  have hsur : c.toNat < 0xD800 ∨ 0xDFFF < c.toNat := by
    rcases hv with h | h
    · exact Or.inl h
    · exact Or.inr h.1
  have hlt : c.toNat < 0x110000 := by
    rcases hv with h | h
    · omega
    · exact h.2
  by_cases h1 : c.toNat < 0x80
  · have henc : utf8EncodeCharM c = [c.toNat] := by
      unfold utf8EncodeCharM
      simp [h1]
    rw [henc]
    show utf8DecodeOne (c.toNat :: rest) = _
    simp only [utf8DecodeOne]
    simp [h1, hcc]
  · by_cases h2 : c.toNat < 0x800
    · have henc : utf8EncodeCharM c = [0xC0 + c.toNat / 64, 0x80 + c.toNat % 64] := by
        unfold utf8EncodeCharM
        simp [h1, h2]
      rw [henc]
      show utf8DecodeOne ((0xC0 + c.toNat / 64) :: (0x80 + c.toNat % 64) :: rest) = _
      have hb1 : ¬(0xC0 + c.toNat / 64 < 0x80) := by omega
      have hb2 : ¬(0xC0 + c.toNat / 64 < 0xC2) := by omega
      have hb3 : 0xC0 + c.toNat / 64 < 0xE0 := by omega
      have hb4 : 0x80 ≤ 0x80 + c.toNat % 64 ∧ 0x80 + c.toNat % 64 < 0xC0 := by omega
      have harith : c.toNat / 64 * 64 + c.toNat % 64 = c.toNat := by omega
      simp only [utf8DecodeOne]
      simp [hb1, hb2, hb3, hb4, harith, hcc]
    · by_cases h3 : c.toNat < 0x10000
      · have henc : utf8EncodeCharM c
            = [0xE0 + c.toNat / 4096, 0x80 + c.toNat / 64 % 64, 0x80 + c.toNat % 64] := by
          unfold utf8EncodeCharM
          simp [h1, h2, h3]
        rw [henc]
        show utf8DecodeOne ((0xE0 + c.toNat / 4096) :: (0x80 + c.toNat / 64 % 64)
          :: (0x80 + c.toNat % 64) :: rest) = _
        have hb1 : ¬(0xE0 + c.toNat / 4096 < 0x80) := by omega
        have hb2 : ¬(0xE0 + c.toNat / 4096 < 0xC2) := by omega
        have hb3 : ¬(0xE0 + c.toNat / 4096 < 0xE0) := by omega
        have hb4 : 0xE0 + c.toNat / 4096 < 0xF0 := by omega
        have hb5 : 0x80 ≤ 0x80 + c.toNat / 64 % 64 ∧ 0x80 + c.toNat / 64 % 64 < 0xC0
            ∧ 0x80 ≤ 0x80 + c.toNat % 64 ∧ 0x80 + c.toNat % 64 < 0xC0 := by omega
        have harith : c.toNat / 4096 * 4096 + c.toNat / 64 % 64 * 64 + c.toNat % 64
            = c.toNat := by omega
        have hrange : 0x800 ≤ c.toNat ∧ ¬(0xD800 ≤ c.toNat ∧ c.toNat < 0xE000) := by omega
        simp only [utf8DecodeOne]
        simp [hb1, hb2, hb3, hb4, hb5, harith, hrange, hcc]
      · have henc : utf8EncodeCharM c
            = [0xF0 + c.toNat / 262144, 0x80 + c.toNat / 4096 % 64,
               0x80 + c.toNat / 64 % 64, 0x80 + c.toNat % 64] := by
          unfold utf8EncodeCharM
          simp [h1, h2, h3]
        rw [henc]
        show utf8DecodeOne ((0xF0 + c.toNat / 262144) :: (0x80 + c.toNat / 4096 % 64)
          :: (0x80 + c.toNat / 64 % 64) :: (0x80 + c.toNat % 64) :: rest) = _
        have hb1 : ¬(0xF0 + c.toNat / 262144 < 0x80) := by omega
        have hb2 : ¬(0xF0 + c.toNat / 262144 < 0xC2) := by omega
        have hb3 : ¬(0xF0 + c.toNat / 262144 < 0xE0) := by omega
        have hb4 : ¬(0xF0 + c.toNat / 262144 < 0xF0) := by omega
        have hb5 : 0xF0 + c.toNat / 262144 < 0xF5 := by omega
        have hb6 : 0x80 ≤ 0x80 + c.toNat / 4096 % 64 ∧ 0x80 + c.toNat / 4096 % 64 < 0xC0
            ∧ 0x80 ≤ 0x80 + c.toNat / 64 % 64 ∧ 0x80 + c.toNat / 64 % 64 < 0xC0
            ∧ 0x80 ≤ 0x80 + c.toNat % 64 ∧ 0x80 + c.toNat % 64 < 0xC0 := by omega
        have harith : c.toNat / 262144 * 262144 + c.toNat / 4096 % 64 * 4096
            + c.toNat / 64 % 64 * 64 + c.toNat % 64 = c.toNat := by omega
        have hrange : 0x10000 ≤ c.toNat ∧ c.toNat < 0x110000 := by omega
        simp only [utf8DecodeOne]
        simp [hb1, hb2, hb3, hb4, hb5, hb6, harith, hrange, hcc]

theorem utf8EncodeCharM_ne_nil (c : Char) : utf8EncodeCharM c ≠ [] := by
  simp only [utf8EncodeCharM]
  split_ifs <;> simp

theorem utf8DecodeList_encode (cs : List Char) (f : Nat) (hf : cs.length ≤ f) :
    utf8DecodeList f (cs.foldr (fun c acc => utf8EncodeCharM c ++ acc) []) = some cs := by
  induction cs generalizing f with
  | nil =>
      rw [utf8DecodeList.eq_def]
      simp
  | cons c cs ih =>
      cases f with
      | zero => simp at hf
      | succ f =>
          simp only [List.foldr_cons]
          have hne : utf8EncodeCharM c
              ++ cs.foldr (fun c acc => utf8EncodeCharM c ++ acc) [] ≠ [] := by
            intro hcontra
            exact utf8EncodeCharM_ne_nil c (List.append_eq_nil.mp hcontra).1
          rw [utf8DecodeList.eq_def, if_neg hne, utf8DecodeOne_encode]
          show (utf8DecodeList f (cs.foldr (fun c acc => utf8EncodeCharM c ++ acc) [])).map
              (fun cs => c :: cs) = some (c :: cs)
          rw [ih f (by simpa using hf)]
          rfl

theorem length_le_foldr_encode (cs : List Char) :
    cs.length ≤ (cs.foldr (fun c acc => utf8EncodeCharM c ++ acc) []).length := by
  induction cs with
  | nil => simp
  | cons c cs ih =>
      simp only [List.foldr_cons, List.length_append, List.length_cons]
      have h1 : 1 ≤ (utf8EncodeCharM c).length := by
        have := utf8EncodeCharM_ne_nil c
        cases hx : utf8EncodeCharM c with
        | nil => exact absurd hx this
        | cons a t => simp
      omega

theorem utf8Decode_utf8Bytes (s : String) : utf8Decode (utf8Bytes s) = some s := by
  unfold utf8Decode utf8Bytes
  rw [utf8DecodeList_encode s.data _ (length_le_foldr_encode s.data)]
  rfl

theorem readStr_pstr (v : String) (r : List Nat) (h : (utf8Bytes v).length < 2 ^ 32) :
    readStr (pstrBytes v ++ r) = some (v, r) := by
  unfold readStr pstrBytes
  rw [List.append_assoc, readU4_toLE _ h]
  simp [readBytesN_exact, utf8Decode_utf8Bytes]

theorem pstrBytes_ne_nil (v : String) : pstrBytes v ≠ [] := by
  simp [pstrBytes, toLE]

theorem toLE_ne_nil {w : Nat} (hw : 0 < w) (v : Nat) : toLE w v ≠ [] := by
  cases w with
  | zero => omega
  | succ w => simp [toLE]

theorem readStrPairs_metaBytes (m : List (String × String)) (f : Nat)
    (hf : m.length ≤ f)
    (hm : ∀ kv ∈ m, (utf8Bytes kv.1).length < 2 ^ 32 ∧ (utf8Bytes kv.2).length < 2 ^ 32) :
    readStrPairs f (metaBytes m) = some m := by
  induction m generalizing f with
  | nil =>
      rw [readStrPairs.eq_def]
      simp [metaBytes]
  | cons kv m ih =>
      obtain ⟨ka, va⟩ := kv
      cases f with
      | zero => simp at hf
      | succ f =>
          have h1 := (hm (ka, va) (List.mem_cons_self _ _)).1
          have h2 := (hm (ka, va) (List.mem_cons_self _ _)).2
          have hMB : metaBytes ((ka, va) :: m)
              = pstrBytes ka ++ (pstrBytes va ++ metaBytes m) := rfl
          have hne : pstrBytes ka ++ (pstrBytes va ++ metaBytes m) ≠ [] := by
            intro hcontra
            exact pstrBytes_ne_nil ka (List.append_eq_nil.mp hcontra).1
          rw [hMB, readStrPairs.eq_def, if_neg hne]
          simp only [readStr_pstr ka _ h1, readStr_pstr va _ h2,
            ih f (by simpa using hf)
              (fun kv hkv => hm kv (List.mem_cons_of_mem _ hkv))]

theorem readNatPairs_pairsBytes (w1 w2 : Nat) (hw1 : 0 < w1)
    (ps : List (Nat × Nat)) (f : Nat) (hf : ps.length ≤ f)
    (hp : ∀ e ∈ ps, e.1 < 256 ^ w1 ∧ e.2 < 256 ^ w2) :
    readNatPairs w1 w2 f (pairsBytes w1 w2 ps) = some ps := by
  induction ps generalizing f with
  | nil =>
      rw [readNatPairs.eq_def]
      simp [pairsBytes]
  | cons e ps ih =>
      obtain ⟨x, y⟩ := e
      cases f with
      | zero => simp at hf
      | succ f =>
          have h1 := (hp (x, y) (List.mem_cons_self _ _)).1
          have h2 := (hp (x, y) (List.mem_cons_self _ _)).2
          have hPB : pairsBytes w1 w2 ((x, y) :: ps)
              = toLE w1 x ++ (toLE w2 y ++ pairsBytes w1 w2 ps) := rfl
          have hne : toLE w1 x ++ (toLE w2 y ++ pairsBytes w1 w2 ps) ≠ [] := by
            intro hcontra
            exact toLE_ne_nil hw1 x (List.append_eq_nil.mp hcontra).1
          rw [hPB, readNatPairs.eq_def, if_neg hne]
          simp only [readU_toLE _ h1, readU_toLE _ h2,
            ih f (by simpa using hf)
              (fun e he => hp e (List.mem_cons_of_mem _ he))]

theorem metaLen_foldl (m : List (String × String)) (a : Nat) :
    m.foldl (fun acc kv => acc + 8 + (utf8Bytes kv.1).length + (utf8Bytes kv.2).length) a
      = a + metaLen m := by
  induction m generalizing a with
  | nil => simp [metaLen]
  | cons kv m ih =>
      simp only [List.foldl_cons]
      rw [ih]
      have hc2 : metaLen (kv :: m)
          = 0 + 8 + (utf8Bytes kv.1).length + (utf8Bytes kv.2).length + metaLen m :=
        ih (0 + 8 + (utf8Bytes kv.1).length + (utf8Bytes kv.2).length)
      rw [hc2]
      omega

theorem metaLen_cons (kv : String × String) (m : List (String × String)) :
    metaLen (kv :: m)
      = 8 + (utf8Bytes kv.1).length + (utf8Bytes kv.2).length + metaLen m := by
  have h : metaLen (kv :: m)
      = 0 + 8 + (utf8Bytes kv.1).length + (utf8Bytes kv.2).length + metaLen m :=
    metaLen_foldl m (0 + 8 + (utf8Bytes kv.1).length + (utf8Bytes kv.2).length)
  rw [h]

theorem metaBytes_length (m : List (String × String)) :
    (metaBytes m).length = metaLen m := by
  induction m with
  | nil => rfl
  | cons kv m ih =>
      have hmb : metaBytes (kv :: m)
          = pstrBytes kv.1 ++ (pstrBytes kv.2 ++ metaBytes m) := rfl
      rw [hmb, metaLen_cons]
      simp only [List.length_append, pstrBytes, toLE_length]
      rw [ih]
      omega

theorem pairsBytes_length (w1 w2 : Nat) (ps : List (Nat × Nat)) :
    (pairsBytes w1 w2 ps).length = ps.length * (w1 + w2) := by
  induction ps with
  | nil => simp [pairsBytes]
  | cons e ps ih =>
      have hpb : pairsBytes w1 w2 (e :: ps)
          = toLE w1 e.1 ++ (toLE w2 e.2 ++ pairsBytes w1 w2 ps) := rfl
      rw [hpb]
      simp only [List.length_append, toLE_length, List.length_cons]
      rw [ih]
      ring

theorem metaBytes_count_le (m : List (String × String)) :
    m.length ≤ (metaBytes m).length := by
  induction m with
  | nil => simp [metaBytes]
  | cons kv m ih =>
      have hmb : metaBytes (kv :: m)
          = pstrBytes kv.1 ++ (pstrBytes kv.2 ++ metaBytes m) := rfl
      rw [hmb]
      simp only [List.length_append, List.length_cons, pstrBytes, toLE_length]
      omega

theorem pairsBytes_count_le (w1 w2 : Nat) (hw1 : 0 < w1) (ps : List (Nat × Nat)) :
    ps.length ≤ (pairsBytes w1 w2 ps).length := by
  induction ps with
  | nil => simp [pairsBytes]
  | cons e ps ih =>
      have hpb : pairsBytes w1 w2 (e :: ps)
          = toLE w1 e.1 ++ (toLE w2 e.2 ++ pairsBytes w1 w2 ps) := rfl
      rw [hpb]
      simp only [List.length_append, List.length_cons, toLE_length]
      omega

theorem readU_exact {w : Nat} {l : List Nat} (r : List Nat) (h : l.length = w) :
    readU w (l ++ r) = some (fromLE l, r) := by
  unfold readU
  rw [if_pos]
  · rw [List.take_left' h, List.drop_left' h]
  · rw [List.length_append]
    omega

/-- A string fits the 4-byte length-prefix field. -/
@[reducible] def strOk (s : String) : Prop := (utf8Bytes s).length < 2 ^ 32

/-- Field values of a Header within the declared widths. -/
@[reducible] def Header.inRange (rec : Header) : Prop := strOk rec.profile ∧ strOk rec.library

/-- Field values of a Footer within the declared widths. -/
@[reducible] def Footer.inRange (rec : Footer) : Prop :=
  rec.summary_start < 2 ^ 64 ∧ rec.summary_offset_start < 2 ^ 64 ∧ rec.summary_crc < 2 ^ 32

/-- Field values of a Schema within the declared widths. -/
@[reducible] def Schema.inRange (rec : Schema) : Prop :=
  rec.id < 2 ^ 16 ∧ strOk rec.name ∧ strOk rec.encoding ∧ rec.data.length < 2 ^ 32

/-- Field values of a Channel within the declared widths. -/
@[reducible] def Channel.inRange (rec : Channel) : Prop :=
  rec.id < 2 ^ 16 ∧ rec.schema_id < 2 ^ 16 ∧ strOk rec.topic
    ∧ strOk rec.message_encoding
    ∧ (∀ kv ∈ rec.metadata, strOk kv.1 ∧ strOk kv.2)
    ∧ metaLen rec.metadata < 2 ^ 32

/-- Field values of a Message within the declared widths. -/
@[reducible] def Message.inRange (rec : Message) : Prop :=
  rec.channel_id < 2 ^ 16 ∧ rec.sequence < 2 ^ 32 ∧ rec.log_time < 2 ^ 64
    ∧ rec.publish_time < 2 ^ 64 ∧ (Message.payloadBytes rec).length < 2 ^ 64

/-- Field values of a Chunk within the declared widths. -/
@[reducible] def Chunk.inRange (rec : Chunk) : Prop :=
  rec.message_start_time < 2 ^ 64 ∧ rec.message_end_time < 2 ^ 64
    ∧ rec.uncompressed_size < 2 ^ 64 ∧ rec.uncompressed_crc < 2 ^ 32
    ∧ strOk rec.compression ∧ rec.data.length < 2 ^ 64
    ∧ (Chunk.payloadBytes rec).length < 2 ^ 64

/-- Field values of a MessageIndex within the declared widths. -/
@[reducible] def MessageIndex.inRange (rec : MessageIndex) : Prop :=
  rec.channel_id < 2 ^ 16 ∧ rec.records.length * 16 < 2 ^ 32
    ∧ (∀ e ∈ rec.records, e.1 < 2 ^ 64 ∧ e.2 < 2 ^ 64)

/-- Field values of a ChunkIndex within the declared widths. -/
@[reducible] def ChunkIndex.inRange (rec : ChunkIndex) : Prop :=
  rec.message_start_time < 2 ^ 64 ∧ rec.message_end_time < 2 ^ 64
    ∧ rec.chunk_start_offset < 2 ^ 64 ∧ rec.chunk_length < 2 ^ 64
    ∧ rec.message_index_offsets.length * 10 < 2 ^ 32
    ∧ (∀ e ∈ rec.message_index_offsets, e.1 < 2 ^ 16 ∧ e.2 < 2 ^ 64)
    ∧ rec.message_index_length < 2 ^ 64 ∧ strOk rec.compression
    ∧ rec.compressed_size < 2 ^ 64 ∧ rec.uncompressed_size < 2 ^ 64

/-- Field values of an Attachment within the declared widths. -/
@[reducible] def Attachment.inRange (rec : Attachment) : Prop :=
  rec.log_time < 2 ^ 64 ∧ rec.create_time < 2 ^ 64 ∧ strOk rec.name
    ∧ strOk rec.media_type ∧ rec.data.length < 2 ^ 64
    ∧ (Attachment.payloadBytes rec).length < 2 ^ 64

/-- Field values of an AttachmentIndex within the declared widths. -/
@[reducible] def AttachmentIndex.inRange (rec : AttachmentIndex) : Prop :=
  rec.offset < 2 ^ 64 ∧ rec.length < 2 ^ 64 ∧ rec.log_time < 2 ^ 64
    ∧ rec.create_time < 2 ^ 64 ∧ rec.data_size < 2 ^ 64 ∧ strOk rec.name
    ∧ strOk rec.media_type

/-- Field values of a Statistics within the declared widths. -/
@[reducible] def Statistics.inRange (rec : Statistics) : Prop :=
  rec.message_count < 2 ^ 64 ∧ rec.schema_count < 2 ^ 16 ∧ rec.channel_count < 2 ^ 32
    ∧ rec.attachment_count < 2 ^ 32 ∧ rec.metadata_count < 2 ^ 32
    ∧ rec.chunk_count < 2 ^ 32 ∧ rec.message_start_time < 2 ^ 64
    ∧ rec.message_end_time < 2 ^ 64
    ∧ rec.channel_message_counts.length * 10 < 2 ^ 32
    ∧ (∀ e ∈ rec.channel_message_counts, e.1 < 2 ^ 16 ∧ e.2 < 2 ^ 64)

/-- Field values of a Metadata within the declared widths. -/
@[reducible] def Metadata.inRange (rec : Metadata) : Prop :=
  strOk rec.name ∧ (∀ kv ∈ rec.metadata, strOk kv.1 ∧ strOk kv.2)
    ∧ metaLen rec.metadata < 2 ^ 32

/-- Field values of a MetadataIndex within the declared widths. -/
@[reducible] def MetadataIndex.inRange (rec : MetadataIndex) : Prop :=
  rec.offset < 2 ^ 64 ∧ rec.length < 2 ^ 64 ∧ strOk rec.name

/-- Field values of a SummaryOffset within the declared widths. -/
@[reducible] def SummaryOffset.inRange (rec : SummaryOffset) : Prop :=
  rec.group_opcode < 2 ^ 8 ∧ rec.group_start < 2 ^ 64 ∧ rec.group_length < 2 ^ 64

/-- Field values of a DataEnd within the declared widths. -/
@[reducible] def DataEnd.inRange (rec : DataEnd) : Prop := rec.data_section_crc < 2 ^ 32

/-- Field values of any record within the declared widths of the payload
layout table. -/
@[reducible] def recInRange : McapRecord → Prop
  | .attachment rec => rec.inRange
  | .attachmentIndex rec => rec.inRange
  | .channel rec => rec.inRange
  | .chunk rec => rec.inRange
  | .chunkIndex rec => rec.inRange
  | .dataEnd rec => rec.inRange
  | .footer rec => rec.inRange
  | .header rec => rec.inRange
  | .message rec => rec.inRange
  | .messageIndex rec => rec.inRange
  | .metadata rec => rec.inRange
  | .metadataIndex rec => rec.inRange
  | .schema rec => rec.inRange
  | .statistics rec => rec.inRange
  | .summaryOffset rec => rec.inRange

theorem decodeRecord_of_payload (rec : McapRecord)
    (hlen : (payloadOf rec).length < 2 ^ 64)
    (hdec : decodePayload (opcodeOf rec) (payloadOf rec) = some rec) :
    decodeRecord (recordBytesOf rec) = some rec := by
  have hop : opcodeOf rec % 256 = opcodeOf rec := by
    cases rec <;> rfl
  have h64 : (payloadOf rec).length < 2 ^ 64 := hlen
  have hrb : recordBytesOf rec
      = opcodeOf rec % 256 :: (toLE 8 (payloadOf rec).length ++ payloadOf rec) := rfl
  rw [hrb]
  simp only [decodeRecord]
  rw [readU8_toLE _ h64]
  simp [hop, hdec]

theorem decodePayload_header (rec : Header) (h : Header.inRange rec) :
    decodeHeaderPayload (Header.payloadBytes rec) = some rec := by
  obtain ⟨h1, h2⟩ := h
  have hp : Header.payloadBytes rec
      = pstrBytes rec.profile ++ (pstrBytes rec.library ++ []) := by
    simp [Header.payloadBytes]
  rw [hp]
  simp only [decodeHeaderPayload, readStr_pstr _ _ h1, readStr_pstr _ _ h2]
  simp

theorem pow256_1 : (256 : Nat) ^ 1 = 2 ^ 8 := by norm_num

theorem pow256_2 : (256 : Nat) ^ 2 = 2 ^ 16 := by norm_num

theorem pow256_8 : (256 : Nat) ^ 8 = 2 ^ 64 := by norm_num

theorem decodePayload_footer (rec : Footer) (h : Footer.inRange rec) :
    decodeFooterPayload (Footer.payloadBytes rec) = some rec := by
  obtain ⟨h1, h2, h3⟩ := h
  have hp : Footer.payloadBytes rec
      = toLE 8 rec.summary_start ++ (toLE 8 rec.summary_offset_start
        ++ (toLE 4 rec.summary_crc ++ [])) := by
    simp [Footer.payloadBytes]
  rw [hp]
  simp only [decodeFooterPayload, readU8_toLE _ h1, readU8_toLE _ h2, readU4_toLE _ h3]
  simp

theorem decodePayload_dataEnd (rec : DataEnd) (h : DataEnd.inRange rec) :
    decodeDataEndPayload (DataEnd.payloadBytes rec) = some rec := by
  have hp : DataEnd.payloadBytes rec = toLE 4 rec.data_section_crc ++ [] := by
    simp [DataEnd.payloadBytes]
  rw [hp]
  simp only [decodeDataEndPayload, readU4_toLE _ h]
  simp

theorem decodePayload_summaryOffset (rec : SummaryOffset) (h : SummaryOffset.inRange rec) :
    decodeSummaryOffsetPayload (SummaryOffset.payloadBytes rec) = some rec := by
  obtain ⟨h1, h2, h3⟩ := h
  have hp : SummaryOffset.payloadBytes rec
      = toLE 1 rec.group_opcode ++ (toLE 8 rec.group_start
        ++ (toLE 8 rec.group_length ++ [])) := by
    simp [SummaryOffset.payloadBytes]
  rw [hp]
  simp only [decodeSummaryOffsetPayload, readU1_toLE _ h1, readU8_toLE _ h2,
    readU8_toLE _ h3]
  simp

theorem decodePayload_metadataIndex (rec : MetadataIndex) (h : MetadataIndex.inRange rec) :
    decodeMetadataIndexPayload (MetadataIndex.payloadBytes rec) = some rec := by
  obtain ⟨h1, h2, h3⟩ := h
  have hp : MetadataIndex.payloadBytes rec
      = toLE 8 rec.offset ++ (toLE 8 rec.length ++ (pstrBytes rec.name ++ [])) := by
    simp [MetadataIndex.payloadBytes]
  rw [hp]
  simp only [decodeMetadataIndexPayload, readU8_toLE _ h1, readU8_toLE _ h2,
    readStr_pstr _ _ h3]
  simp

theorem decodePayload_attachmentIndex (rec : AttachmentIndex)
    (h : AttachmentIndex.inRange rec) :
    decodeAttachmentIndexPayload (AttachmentIndex.payloadBytes rec) = some rec := by
  obtain ⟨h1, h2, h3, h4, h5, h6, h7⟩ := h
  have hp : AttachmentIndex.payloadBytes rec
      = toLE 8 rec.offset ++ (toLE 8 rec.length ++ (toLE 8 rec.log_time
        ++ (toLE 8 rec.create_time ++ (toLE 8 rec.data_size
        ++ (pstrBytes rec.name ++ (pstrBytes rec.media_type ++ [])))))) := by
    simp [AttachmentIndex.payloadBytes]
  rw [hp]
  simp only [decodeAttachmentIndexPayload, readU8_toLE _ h1, readU8_toLE _ h2,
    readU8_toLE _ h3, readU8_toLE _ h4, readU8_toLE _ h5, readStr_pstr _ _ h6,
    readStr_pstr _ _ h7]
  simp

theorem decodePayload_schema (rec : Schema) (h : Schema.inRange rec) :
    decodeSchemaPayload (Schema.payloadBytes rec) = some rec := by
  obtain ⟨h1, h2, h3, h4⟩ := h
  have hp : Schema.payloadBytes rec
      = toLE 2 rec.id ++ (pstrBytes rec.name ++ (pstrBytes rec.encoding
        ++ (toLE 4 rec.data.length ++ (rec.data ++ [])))) := by
    simp [Schema.payloadBytes]
  rw [hp]
  simp only [decodeSchemaPayload, readU2_toLE _ h1, readStr_pstr _ _ h2,
    readStr_pstr _ _ h3, readU4_toLE _ h4, readBytesN_exact]
  simp

theorem decodePayload_message (rec : Message) (h : Message.inRange rec) :
    decodeMessagePayload (Message.payloadBytes rec) = some rec := by
  obtain ⟨h1, h2, h3, h4, _⟩ := h
  have hp : Message.payloadBytes rec
      = toLE 2 rec.channel_id ++ (toLE 4 rec.sequence ++ (toLE 8 rec.log_time
        ++ (toLE 8 rec.publish_time ++ rec.data))) := by
    simp [Message.payloadBytes]
  rw [hp]
  simp only [decodeMessagePayload, readU2_toLE _ h1, readU4_toLE _ h2,
    readU8_toLE _ h3, readU8_toLE _ h4]

theorem decodePayload_chunk (rec : Chunk) (h : Chunk.inRange rec) :
    decodeChunkPayload (Chunk.payloadBytes rec) = some rec := by
  obtain ⟨h1, h2, h3, h4, h5, h6, _⟩ := h
  have hp : Chunk.payloadBytes rec
      = toLE 8 rec.message_start_time ++ (toLE 8 rec.message_end_time
        ++ (toLE 8 rec.uncompressed_size ++ (toLE 4 rec.uncompressed_crc
        ++ (pstrBytes rec.compression ++ (toLE 8 rec.data.length
        ++ (rec.data ++ [])))))) := by
    simp [Chunk.payloadBytes]
  rw [hp]
  simp only [decodeChunkPayload, readU8_toLE _ h1, readU8_toLE _ h2, readU8_toLE _ h3,
    readU4_toLE _ h4, readStr_pstr _ _ h5, readU8_toLE _ h6, readBytesN_exact]
  simp

theorem decodePayload_channel (rec : Channel) (h : Channel.inRange rec) :
    decodeChannelPayload (Channel.payloadBytes rec) = some rec := by
  obtain ⟨h1, h2, h3, h4, h5, h6⟩ := h
  have h6b : (metaBytes rec.metadata).length < 2 ^ 32 := by
    rw [metaBytes_length]
    exact h6
  have hp : Channel.payloadBytes rec
      = toLE 2 rec.id ++ (toLE 2 rec.schema_id ++ (pstrBytes rec.topic
        ++ (pstrBytes rec.message_encoding
        ++ (toLE 4 (metaBytes rec.metadata).length
        ++ (metaBytes rec.metadata ++ []))))) := by
    simp [Channel.payloadBytes, metaBytes_length]
  rw [hp]
  simp only [decodeChannelPayload, readU2_toLE _ h1, readU2_toLE _ h2,
    readStr_pstr _ _ h3, readStr_pstr _ _ h4, readU4_toLE _ h6b, readBytesN_exact,
    readStrPairs_metaBytes rec.metadata _ (metaBytes_count_le rec.metadata) h5]
  simp

theorem decodePayload_metadata (rec : Metadata) (h : Metadata.inRange rec) :
    decodeMetadataPayload (Metadata.payloadBytes rec) = some rec := by
  obtain ⟨h1, h2, h3⟩ := h
  have h3b : (metaBytes rec.metadata).length < 2 ^ 32 := by
    rw [metaBytes_length]
    exact h3
  have hp : Metadata.payloadBytes rec
      = pstrBytes rec.name ++ (toLE 4 (metaBytes rec.metadata).length
        ++ (metaBytes rec.metadata ++ [])) := by
    simp [Metadata.payloadBytes, metaBytes_length]
  rw [hp]
  simp only [decodeMetadataPayload, readStr_pstr _ _ h1, readU4_toLE _ h3b,
    readBytesN_exact,
    readStrPairs_metaBytes rec.metadata _ (metaBytes_count_le rec.metadata) h2]
  simp

theorem decodePayload_messageIndex (rec : MessageIndex) (h : MessageIndex.inRange rec) :
    decodeMessageIndexPayload (MessageIndex.payloadBytes rec) = some rec := by
  obtain ⟨h1, h2, h3⟩ := h
  have h2b : (pairsBytes 8 8 rec.records).length < 2 ^ 32 := by
    rw [pairsBytes_length]
    omega
  have h3b : ∀ e ∈ rec.records, e.1 < 256 ^ 8 ∧ e.2 < 256 ^ 8 := by
    intro e he
    rw [pow256_8]
    exact h3 e he
  have hp : MessageIndex.payloadBytes rec
      = toLE 2 rec.channel_id ++ (toLE 4 (pairsBytes 8 8 rec.records).length
        ++ (pairsBytes 8 8 rec.records ++ [])) := by
    simp [MessageIndex.payloadBytes, pairsBytes_length]
  rw [hp]
  simp only [decodeMessageIndexPayload, readU2_toLE _ h1, readU4_toLE _ h2b,
    readBytesN_exact,
    readNatPairs_pairsBytes 8 8 (by norm_num) rec.records _
      (pairsBytes_count_le 8 8 (by norm_num) rec.records) h3b]
  simp

theorem decodePayload_chunkIndex (rec : ChunkIndex) (h : ChunkIndex.inRange rec) :
    decodeChunkIndexPayload (ChunkIndex.payloadBytes rec) = some rec := by
  obtain ⟨h1, h2, h3, h4, h5, h6, h7, h8, h9, h10⟩ := h
  have h5b : (pairsBytes 2 8 rec.message_index_offsets).length < 2 ^ 32 := by
    rw [pairsBytes_length]
    omega
  have h6b : ∀ e ∈ rec.message_index_offsets, e.1 < 256 ^ 2 ∧ e.2 < 256 ^ 8 := by
    intro e he
    rw [pow256_2, pow256_8]
    exact h6 e he
  have hp : ChunkIndex.payloadBytes rec
      = toLE 8 rec.message_start_time ++ (toLE 8 rec.message_end_time
        ++ (toLE 8 rec.chunk_start_offset ++ (toLE 8 rec.chunk_length
        ++ (toLE 4 (pairsBytes 2 8 rec.message_index_offsets).length
        ++ (pairsBytes 2 8 rec.message_index_offsets
        ++ (toLE 8 rec.message_index_length ++ (pstrBytes rec.compression
        ++ (toLE 8 rec.compressed_size ++ (toLE 8 rec.uncompressed_size
        ++ []))))))))) := by
    simp [ChunkIndex.payloadBytes, pairsBytes_length]
  rw [hp]
  simp only [decodeChunkIndexPayload, readU8_toLE _ h1, readU8_toLE _ h2,
    readU8_toLE _ h3, readU8_toLE _ h4, readU4_toLE _ h5b, readBytesN_exact,
    readNatPairs_pairsBytes 2 8 (by norm_num) rec.message_index_offsets _
      (pairsBytes_count_le 2 8 (by norm_num) rec.message_index_offsets) h6b,
    readU8_toLE _ h7, readStr_pstr _ _ h8, readU8_toLE _ h9, readU8_toLE _ h10]
  simp

theorem decodePayload_statistics (rec : Statistics) (h : Statistics.inRange rec) :
    decodeStatisticsPayload (Statistics.payloadBytes rec) = some rec := by
  obtain ⟨h1, h2, h3, h4, h5, h6, h7, h8, h9, h10⟩ := h
  have h9b : (pairsBytes 2 8 rec.channel_message_counts).length < 2 ^ 32 := by
    rw [pairsBytes_length]
    omega
  have h10b : ∀ e ∈ rec.channel_message_counts, e.1 < 256 ^ 2 ∧ e.2 < 256 ^ 8 := by
    intro e he
    rw [pow256_2, pow256_8]
    exact h10 e he
  have hp : Statistics.payloadBytes rec
      = toLE 8 rec.message_count ++ (toLE 2 rec.schema_count
        ++ (toLE 4 rec.channel_count ++ (toLE 4 rec.attachment_count
        ++ (toLE 4 rec.metadata_count ++ (toLE 4 rec.chunk_count
        ++ (toLE 8 rec.message_start_time ++ (toLE 8 rec.message_end_time
        ++ (toLE 4 (pairsBytes 2 8 rec.channel_message_counts).length
        ++ (pairsBytes 2 8 rec.channel_message_counts ++ []))))))))) := by
    simp [Statistics.payloadBytes, pairsBytes_length]
  rw [hp]
  simp only [decodeStatisticsPayload, readU8_toLE _ h1, readU2_toLE _ h2,
    readU4_toLE _ h3, readU4_toLE _ h4, readU4_toLE _ h5, readU4_toLE _ h6,
    readU8_toLE _ h7, readU8_toLE _ h8, readU4_toLE _ h9b, readBytesN_exact,
    readNatPairs_pairsBytes 2 8 (by norm_num) rec.channel_message_counts _
      (pairsBytes_count_le 2 8 (by norm_num) rec.channel_message_counts) h10b]
  simp

theorem decodePayload_attachment (rec : Attachment) (h : Attachment.inRange rec) :
    decodeAttachmentPayload (Attachment.payloadBytes rec) = some rec := by
  obtain ⟨h1, h2, h3, h4, h5, _⟩ := h
  have hp : Attachment.payloadBytes rec
      = toLE 8 rec.log_time ++ (toLE 8 rec.create_time ++ (pstrBytes rec.name
        ++ (pstrBytes rec.media_type ++ (toLE 8 rec.data.length
        ++ (rec.data ++ (toLE 4 (crc32 (Attachment.coreBytes rec)) ++ [])))))) := by
    simp [Attachment.payloadBytes, Attachment.coreBytes]
  rw [hp]
  simp only [decodeAttachmentPayload, readU8_toLE _ h1, readU8_toLE _ h2,
    readStr_pstr _ _ h3, readStr_pstr _ _ h4, readU8_toLE _ h5, readBytesN_exact,
    readU_exact _ (toLE_length 4 _)]
  simp

theorem decodePayload_at_header (l : List Nat) :
    decodePayload Opcode.HEADER l = (decodeHeaderPayload l).map McapRecord.header := by
  simp [decodePayload, Opcode.HEADER, Opcode.FOOTER, Opcode.SCHEMA, Opcode.CHANNEL, Opcode.MESSAGE,
    Opcode.CHUNK, Opcode.MESSAGE_INDEX, Opcode.CHUNK_INDEX, Opcode.ATTACHMENT,
    Opcode.ATTACHMENT_INDEX, Opcode.STATISTICS, Opcode.METADATA, Opcode.METADATA_INDEX,
    Opcode.SUMMARY_OFFSET, Opcode.DATA_END]

theorem decodePayload_at_footer (l : List Nat) :
    decodePayload Opcode.FOOTER l = (decodeFooterPayload l).map McapRecord.footer := by
  simp [decodePayload, Opcode.HEADER, Opcode.FOOTER, Opcode.SCHEMA, Opcode.CHANNEL, Opcode.MESSAGE,
    Opcode.CHUNK, Opcode.MESSAGE_INDEX, Opcode.CHUNK_INDEX, Opcode.ATTACHMENT,
    Opcode.ATTACHMENT_INDEX, Opcode.STATISTICS, Opcode.METADATA, Opcode.METADATA_INDEX,
    Opcode.SUMMARY_OFFSET, Opcode.DATA_END]

theorem decodePayload_at_schema (l : List Nat) :
    decodePayload Opcode.SCHEMA l = (decodeSchemaPayload l).map McapRecord.schema := by
  simp [decodePayload, Opcode.HEADER, Opcode.FOOTER, Opcode.SCHEMA, Opcode.CHANNEL, Opcode.MESSAGE,
    Opcode.CHUNK, Opcode.MESSAGE_INDEX, Opcode.CHUNK_INDEX, Opcode.ATTACHMENT,
    Opcode.ATTACHMENT_INDEX, Opcode.STATISTICS, Opcode.METADATA, Opcode.METADATA_INDEX,
    Opcode.SUMMARY_OFFSET, Opcode.DATA_END]

theorem decodePayload_at_channel (l : List Nat) :
    decodePayload Opcode.CHANNEL l = (decodeChannelPayload l).map McapRecord.channel := by
  simp [decodePayload, Opcode.HEADER, Opcode.FOOTER, Opcode.SCHEMA, Opcode.CHANNEL, Opcode.MESSAGE,
    Opcode.CHUNK, Opcode.MESSAGE_INDEX, Opcode.CHUNK_INDEX, Opcode.ATTACHMENT,
    Opcode.ATTACHMENT_INDEX, Opcode.STATISTICS, Opcode.METADATA, Opcode.METADATA_INDEX,
    Opcode.SUMMARY_OFFSET, Opcode.DATA_END]

theorem decodePayload_at_message (l : List Nat) :
    decodePayload Opcode.MESSAGE l = (decodeMessagePayload l).map McapRecord.message := by
  simp [decodePayload, Opcode.HEADER, Opcode.FOOTER, Opcode.SCHEMA, Opcode.CHANNEL, Opcode.MESSAGE,
    Opcode.CHUNK, Opcode.MESSAGE_INDEX, Opcode.CHUNK_INDEX, Opcode.ATTACHMENT,
    Opcode.ATTACHMENT_INDEX, Opcode.STATISTICS, Opcode.METADATA, Opcode.METADATA_INDEX,
    Opcode.SUMMARY_OFFSET, Opcode.DATA_END]

theorem decodePayload_at_chunk (l : List Nat) :
    decodePayload Opcode.CHUNK l = (decodeChunkPayload l).map McapRecord.chunk := by
  simp [decodePayload, Opcode.HEADER, Opcode.FOOTER, Opcode.SCHEMA, Opcode.CHANNEL, Opcode.MESSAGE,
    Opcode.CHUNK, Opcode.MESSAGE_INDEX, Opcode.CHUNK_INDEX, Opcode.ATTACHMENT,
    Opcode.ATTACHMENT_INDEX, Opcode.STATISTICS, Opcode.METADATA, Opcode.METADATA_INDEX,
    Opcode.SUMMARY_OFFSET, Opcode.DATA_END]

theorem decodePayload_at_messageIndex (l : List Nat) :
    decodePayload Opcode.MESSAGE_INDEX l = (decodeMessageIndexPayload l).map McapRecord.messageIndex := by
  simp [decodePayload, Opcode.HEADER, Opcode.FOOTER, Opcode.SCHEMA, Opcode.CHANNEL, Opcode.MESSAGE,
    Opcode.CHUNK, Opcode.MESSAGE_INDEX, Opcode.CHUNK_INDEX, Opcode.ATTACHMENT,
    Opcode.ATTACHMENT_INDEX, Opcode.STATISTICS, Opcode.METADATA, Opcode.METADATA_INDEX,
    Opcode.SUMMARY_OFFSET, Opcode.DATA_END]

theorem decodePayload_at_chunkIndex (l : List Nat) :
    decodePayload Opcode.CHUNK_INDEX l = (decodeChunkIndexPayload l).map McapRecord.chunkIndex := by
  simp [decodePayload, Opcode.HEADER, Opcode.FOOTER, Opcode.SCHEMA, Opcode.CHANNEL, Opcode.MESSAGE,
    Opcode.CHUNK, Opcode.MESSAGE_INDEX, Opcode.CHUNK_INDEX, Opcode.ATTACHMENT,
    Opcode.ATTACHMENT_INDEX, Opcode.STATISTICS, Opcode.METADATA, Opcode.METADATA_INDEX,
    Opcode.SUMMARY_OFFSET, Opcode.DATA_END]

theorem decodePayload_at_attachment (l : List Nat) :
    decodePayload Opcode.ATTACHMENT l = (decodeAttachmentPayload l).map McapRecord.attachment := by
  simp [decodePayload, Opcode.HEADER, Opcode.FOOTER, Opcode.SCHEMA, Opcode.CHANNEL, Opcode.MESSAGE,
    Opcode.CHUNK, Opcode.MESSAGE_INDEX, Opcode.CHUNK_INDEX, Opcode.ATTACHMENT,
    Opcode.ATTACHMENT_INDEX, Opcode.STATISTICS, Opcode.METADATA, Opcode.METADATA_INDEX,
    Opcode.SUMMARY_OFFSET, Opcode.DATA_END]

theorem decodePayload_at_attachmentIndex (l : List Nat) :
    decodePayload Opcode.ATTACHMENT_INDEX l = (decodeAttachmentIndexPayload l).map McapRecord.attachmentIndex := by
  simp [decodePayload, Opcode.HEADER, Opcode.FOOTER, Opcode.SCHEMA, Opcode.CHANNEL, Opcode.MESSAGE,
    Opcode.CHUNK, Opcode.MESSAGE_INDEX, Opcode.CHUNK_INDEX, Opcode.ATTACHMENT,
    Opcode.ATTACHMENT_INDEX, Opcode.STATISTICS, Opcode.METADATA, Opcode.METADATA_INDEX,
    Opcode.SUMMARY_OFFSET, Opcode.DATA_END]

theorem decodePayload_at_statistics (l : List Nat) :
    decodePayload Opcode.STATISTICS l = (decodeStatisticsPayload l).map McapRecord.statistics := by
  simp [decodePayload, Opcode.HEADER, Opcode.FOOTER, Opcode.SCHEMA, Opcode.CHANNEL, Opcode.MESSAGE,
    Opcode.CHUNK, Opcode.MESSAGE_INDEX, Opcode.CHUNK_INDEX, Opcode.ATTACHMENT,
    Opcode.ATTACHMENT_INDEX, Opcode.STATISTICS, Opcode.METADATA, Opcode.METADATA_INDEX,
    Opcode.SUMMARY_OFFSET, Opcode.DATA_END]

theorem decodePayload_at_metadata (l : List Nat) :
    decodePayload Opcode.METADATA l = (decodeMetadataPayload l).map McapRecord.metadata := by
  simp [decodePayload, Opcode.HEADER, Opcode.FOOTER, Opcode.SCHEMA, Opcode.CHANNEL, Opcode.MESSAGE,
    Opcode.CHUNK, Opcode.MESSAGE_INDEX, Opcode.CHUNK_INDEX, Opcode.ATTACHMENT,
    Opcode.ATTACHMENT_INDEX, Opcode.STATISTICS, Opcode.METADATA, Opcode.METADATA_INDEX,
    Opcode.SUMMARY_OFFSET, Opcode.DATA_END]

theorem decodePayload_at_metadataIndex (l : List Nat) :
    decodePayload Opcode.METADATA_INDEX l = (decodeMetadataIndexPayload l).map McapRecord.metadataIndex := by
  simp [decodePayload, Opcode.HEADER, Opcode.FOOTER, Opcode.SCHEMA, Opcode.CHANNEL, Opcode.MESSAGE,
    Opcode.CHUNK, Opcode.MESSAGE_INDEX, Opcode.CHUNK_INDEX, Opcode.ATTACHMENT,
    Opcode.ATTACHMENT_INDEX, Opcode.STATISTICS, Opcode.METADATA, Opcode.METADATA_INDEX,
    Opcode.SUMMARY_OFFSET, Opcode.DATA_END]

theorem decodePayload_at_summaryOffset (l : List Nat) :
    decodePayload Opcode.SUMMARY_OFFSET l = (decodeSummaryOffsetPayload l).map McapRecord.summaryOffset := by
  simp [decodePayload, Opcode.HEADER, Opcode.FOOTER, Opcode.SCHEMA, Opcode.CHANNEL, Opcode.MESSAGE,
    Opcode.CHUNK, Opcode.MESSAGE_INDEX, Opcode.CHUNK_INDEX, Opcode.ATTACHMENT,
    Opcode.ATTACHMENT_INDEX, Opcode.STATISTICS, Opcode.METADATA, Opcode.METADATA_INDEX,
    Opcode.SUMMARY_OFFSET, Opcode.DATA_END]

theorem decodePayload_at_dataEnd (l : List Nat) :
    decodePayload Opcode.DATA_END l = (decodeDataEndPayload l).map McapRecord.dataEnd := by
  simp [decodePayload, Opcode.HEADER, Opcode.FOOTER, Opcode.SCHEMA, Opcode.CHANNEL, Opcode.MESSAGE,
    Opcode.CHUNK, Opcode.MESSAGE_INDEX, Opcode.CHUNK_INDEX, Opcode.ATTACHMENT,
    Opcode.ATTACHMENT_INDEX, Opcode.STATISTICS, Opcode.METADATA, Opcode.METADATA_INDEX,
    Opcode.SUMMARY_OFFSET, Opcode.DATA_END]

theorem payloadOf_length_lt (rec : McapRecord) (h : recInRange rec) :
    (payloadOf rec).length < 2 ^ 64 := by
  cases rec with
  | header rec =>
      obtain ⟨h1, h2⟩ := h
      simp only [strOk] at h1 h2
      simp only [payloadOf, Header.payloadBytes, List.length_append, pstrBytes, toLE_length]
      omega
  | footer rec =>
      simp only [payloadOf, Footer.payloadBytes, List.length_append, toLE_length]
      omega
  | schema rec =>
      obtain ⟨h1, h2, h3, h4⟩ := h
      simp only [strOk] at h2 h3
      simp only [payloadOf, Schema.payloadBytes, List.length_append, pstrBytes, toLE_length]
      omega
  | channel rec =>
      obtain ⟨h1, h2, h3, h4, h5, h6⟩ := h
      simp only [strOk] at h3 h4
      simp only [payloadOf, Channel.payloadBytes, List.length_append, pstrBytes,
        toLE_length, metaBytes_length]
      omega
  | message rec =>
      exact h.2.2.2.2
  | chunk rec =>
      exact h.2.2.2.2.2.2
  | messageIndex rec =>
      obtain ⟨h1, h2, h3⟩ := h
      simp only [payloadOf, MessageIndex.payloadBytes, List.length_append, toLE_length,
        pairsBytes_length]
      omega
  | chunkIndex rec =>
      obtain ⟨h1, h2, h3, h4, h5, h6, h7, h8, h9, h10⟩ := h
      simp only [strOk] at h8
      simp only [payloadOf, ChunkIndex.payloadBytes, List.length_append, pstrBytes,
        toLE_length, pairsBytes_length]
      omega
  | attachment rec =>
      exact h.2.2.2.2.2
  | attachmentIndex rec =>
      obtain ⟨h1, h2, h3, h4, h5, h6, h7⟩ := h
      simp only [strOk] at h6 h7
      simp only [payloadOf, AttachmentIndex.payloadBytes, List.length_append, pstrBytes,
        toLE_length]
      omega
  | statistics rec =>
      obtain ⟨h1, h2, h3, h4, h5, h6, h7, h8, h9, h10⟩ := h
      simp only [payloadOf, Statistics.payloadBytes, List.length_append, toLE_length,
        pairsBytes_length]
      omega
  | metadata rec =>
      obtain ⟨h1, h2, h3⟩ := h
      simp only [strOk] at h1
      simp only [payloadOf, Metadata.payloadBytes, List.length_append, pstrBytes,
        toLE_length, metaBytes_length]
      omega
  | metadataIndex rec =>
      obtain ⟨h1, h2, h3⟩ := h
      simp only [strOk] at h3
      simp only [payloadOf, MetadataIndex.payloadBytes, List.length_append, pstrBytes,
        toLE_length]
      omega
  | summaryOffset rec =>
      simp only [payloadOf, SummaryOffset.payloadBytes, List.length_append, toLE_length]
      omega
  | dataEnd rec =>
      simp only [payloadOf, DataEnd.payloadBytes, toLE_length]
      omega

theorem decode_encode_of_inRange (rec : McapRecord) (h : recInRange rec) :
    decodeRecord (recordBytesOf rec) = some rec := by
  apply decodeRecord_of_payload rec (payloadOf_length_lt rec h)
  cases rec with
  | header rec =>
      simp only [opcodeOf, payloadOf]
      rw [decodePayload_at_header, decodePayload_header rec h]
      rfl
  | footer rec =>
      simp only [opcodeOf, payloadOf]
      rw [decodePayload_at_footer, decodePayload_footer rec h]
      rfl
  | schema rec =>
      simp only [opcodeOf, payloadOf]
      rw [decodePayload_at_schema, decodePayload_schema rec h]
      rfl
  | channel rec =>
      simp only [opcodeOf, payloadOf]
      rw [decodePayload_at_channel, decodePayload_channel rec h]
      rfl
  | message rec =>
      simp only [opcodeOf, payloadOf]
      rw [decodePayload_at_message, decodePayload_message rec h]
      rfl
  | chunk rec =>
      simp only [opcodeOf, payloadOf]
      rw [decodePayload_at_chunk, decodePayload_chunk rec h]
      rfl
  | messageIndex rec =>
      simp only [opcodeOf, payloadOf]
      rw [decodePayload_at_messageIndex, decodePayload_messageIndex rec h]
      rfl
  | chunkIndex rec =>
      simp only [opcodeOf, payloadOf]
      rw [decodePayload_at_chunkIndex, decodePayload_chunkIndex rec h]
      rfl
  | attachment rec =>
      simp only [opcodeOf, payloadOf]
      rw [decodePayload_at_attachment, decodePayload_attachment rec h]
      rfl
  | attachmentIndex rec =>
      simp only [opcodeOf, payloadOf]
      rw [decodePayload_at_attachmentIndex, decodePayload_attachmentIndex rec h]
      rfl
  | statistics rec =>
      simp only [opcodeOf, payloadOf]
      rw [decodePayload_at_statistics, decodePayload_statistics rec h]
      rfl
  | metadata rec =>
      simp only [opcodeOf, payloadOf]
      rw [decodePayload_at_metadata, decodePayload_metadata rec h]
      rfl
  | metadataIndex rec =>
      simp only [opcodeOf, payloadOf]
      rw [decodePayload_at_metadataIndex, decodePayload_metadataIndex rec h]
      rfl
  | summaryOffset rec =>
      simp only [opcodeOf, payloadOf]
      rw [decodePayload_at_summaryOffset, decodePayload_summaryOffset rec h]
      rfl
  | dataEnd rec =>
      simp only [opcodeOf, payloadOf]
      rw [decodePayload_at_dataEnd, decodePayload_dataEnd rec h]
      rfl

theorem pow256_4 : (256 : Nat) ^ 4 = 2 ^ 32 := by norm_num

/-- One primitive writer invocation, for stating properties over arbitrary
interleavings of the public writers. -/
inductive WriteOp where
  | raw (data : List Nat)
  | u8 (v : Nat)
  | u16 (v : Nat)
  | u32 (v : Nat)
  | u64 (v : Nat)
  | pstr (v : String)
deriving DecidableEq

/-- Run one primitive writer on the builder. -/
def applyWriteOp (s : RecordBuilder) : WriteOp → RecordBuilder
  | .raw d => s.write d
  | .u8 v => s.write1 v
  | .u16 v => s.write2 v
  | .u32 v => s.write4 v
  | .u64 v => s.write8 v
  | .pstr v => s.write_prefixed_string v

/-- The bytes one primitive writer appends. -/
def writeOpBytes : WriteOp → List Nat
  | .raw d => d
  | .u8 v => toLE 1 v
  | .u16 v => toLE 2 v
  | .u32 v => toLE 4 v
  | .u64 v => toLE 8 v
  | .pstr v => pstrBytes v

/-- Run a sequence of primitive writers on the builder. -/
def applyWriteOps (s : RecordBuilder) (ops : List WriteOp) : RecordBuilder :=
  ops.foldl applyWriteOp s

/-- The bytes a sequence of primitive writers appends. -/
def writeOpsBytes (ops : List WriteOp) : List Nat :=
  ops.foldr (fun op acc => writeOpBytes op ++ acc) []

theorem applyWriteOp_shape (B : List Nat) (o : Nat) (op : WriteOp) :
    applyWriteOp ⟨B, B.length, o⟩ op
      = ⟨B ++ writeOpBytes op, (B ++ writeOpBytes op).length, o⟩ := by
  cases op <;>
    simp only [applyWriteOp, writeOpBytes, Mcap.write_shape, write1_shape, write2_shape,
      write4_shape, write8_shape, wps_shape]

theorem applyWriteOps_shape (ops : List WriteOp) (B : List Nat) (o : Nat) :
    applyWriteOps ⟨B, B.length, o⟩ ops
      = ⟨B ++ writeOpsBytes ops, (B ++ writeOpsBytes ops).length, o⟩ := by
  induction ops generalizing B with
  | nil => simp [applyWriteOps, writeOpsBytes]
  | cons op ops ih =>
      have hws : writeOpsBytes (op :: ops) = writeOpBytes op ++ writeOpsBytes ops := rfl
      simp only [applyWriteOps, List.foldl_cons, applyWriteOp_shape] at ih ⊢
      rw [ih, hws]
      simp [List.append_assoc]

theorem finish_record_patch (B : List Nat) (o p : Nat) (hpB : p = B.length)
    (ho : o + 9 ≤ p) :
    RecordBuilder.finish_record ⟨B, p, o⟩
      = ⟨B.take (o + 1) ++ (toLE 8 (p - o - 9) ++ B.drop (o + 9)), p, o⟩ := by
  have hInt : (((p : Int) - (o : Int) - 9) % (2 : Int) ^ 64)
      = (((p - o - 9) % 2 ^ 64 : Nat) : Int) := by
    have hcast : (p : Int) - (o : Int) - 9 = ((p - o - 9 : Nat) : Int) := by
      omega
    rw [hcast]
    push_cast
    rfl
  have hToNat : ((((p : Int) - (o : Int) - 9) % (2 : Int) ^ 64)).toNat
      = (p - o - 9) % 2 ^ 64 := by
    rw [hInt, Int.toNat_natCast]
  have hTo : toLE 8 ((p - o - 9) % 2 ^ 64) = toLE 8 (p - o - 9) := by
    rw [← pow256_8, toLE_mod]
  simp only [RecordBuilder.finish_record, hToNat, hTo]
  have hle : o + 1 + (toLE 8 (p - o - 9)).length ≤ B.length := by
    rw [toLE_length]
    omega
  rw [bufWrite_patch B _ (o + 1) hle]
  rw [toLE_length]
  have h9 : o + 1 + 8 = o + 9 := by omega
  rw [h9]
  simp [List.append_assoc]

/-- Demonstration values used by the witnesses. -/
def demoProfile : String := "x"

def demoLibrary : String := "y"

def demoTopic : String := "tp"

def demoEncoding : String := "enc"

def demoKey : String := "k"

def demoVal : String := "v"

def cafeStr : String := "café"

def demoHeader : Header := ⟨demoProfile, demoLibrary⟩

@[reducible] def demoHeaderRec : McapRecord := McapRecord.header demoHeader

def demoChannel : Channel :=
  ⟨7, demoTopic, demoEncoding, [(demoKey, demoVal)], 3⟩

@[reducible] def demoChannelRec : McapRecord := McapRecord.channel demoChannel

def demoAttachment : Attachment := ⟨2, 1, demoKey, demoVal, [120, 121, 122]⟩

def demoMessageIndex : MessageIndex := ⟨4, [(10, 20), (30, 40)]⟩

def demoChunkIndex : ChunkIndex := ⟨100, 50, demoEncoding, 60, 9, 70, [(1, 2)], 8, 61⟩

def demoStatistics : Statistics := ⟨1, 2, [(5, 6)], 3, 4, 11, 10, 7, 8⟩

def demoMetadata : Metadata := ⟨demoKey, [(demoKey, demoVal)]⟩

def demoOps : List WriteOp :=
  [WriteOp.u16 5, WriteOp.pstr demoTopic, WriteOp.raw [1, 2, 3], WriteOp.u64 9]

/-- The byte content of the private, throwaway builder used by
Attachment.write, after finalization. -/
def attachmentPrivateBytes (rec : Attachment) : List Nat :=
  (((((((((RecordBuilder.init.start_record Opcode.ATTACHMENT).write8
    rec.log_time).write8 rec.create_time).write_prefixed_string
    rec.name).write_prefixed_string rec.media_type).write8
    rec.data.length).write rec.data).write4 0).finish_record).endBuffer.1

/-- C1: every record write emits exactly one opcode byte, then an 8-byte
little-endian length field, then exactly length payload bytes; and for an
arbitrary interleaving of the primitive writers between matching
start_record and finish_record calls, the backpatched length field holds
exactly the number of payload bytes written in between. -/
theorem c1_record_framing :
    (∀ (rec : McapRecord) (s : RecordBuilder), s.pos = s.buffer.length →
      (writeRecord rec s).buffer
        = s.buffer ++ (toLE 1 (opcodeOf rec)
            ++ (toLE 8 (payloadOf rec).length ++ payloadOf rec))
      ∧ (toLE 1 (opcodeOf rec)).length = 1
      ∧ (toLE 8 (payloadOf rec).length).length = 8
      ∧ ((payloadOf rec).length < 2 ^ 64 →
          fromLE (toLE 8 (payloadOf rec).length) = (payloadOf rec).length))
    ∧ (∀ (ops : List WriteOp) (s : RecordBuilder) (op : Nat),
        s.pos = s.buffer.length →
        ((applyWriteOps (s.start_record op) ops).finish_record).buffer
          = s.buffer ++ (toLE 1 op
              ++ (toLE 8 (writeOpsBytes ops).length ++ writeOpsBytes ops))
        ∧ ((writeOpsBytes ops).length < 2 ^ 64 →
            fromLE (toLE 8 (writeOpsBytes ops).length) = (writeOpsBytes ops).length)) := by
  constructor
  · intro rec s hp
    refine ⟨?_, by simp [toLE_length], by simp [toLE_length], ?_⟩
    · have h := (writeRecord_append rec hp).1
      rw [h]
      rfl
    · intro hlt
      exact fromLE_toLE_of_lt (by rw [pow256_8]; exact hlt)
  · intro ops s op hp
    obtain ⟨B, p, o⟩ := s
    have hp2 : p = B.length := hp
    subst hp2
    rw [start_record_shape, applyWriteOps_shape]
    simp only [List.append_assoc]
    rw [finish_shape]
    refine ⟨rfl, ?_⟩
    intro hlt
    exact fromLE_toLE_of_lt (by rw [pow256_8]; exact hlt)

/-- Witness for C1 at a concrete record and a concrete interleaving of the
primitive writers. -/
theorem c1_record_framing_witness :
    RecordBuilder.init.pos = RecordBuilder.init.buffer.length
    ∧ (writeRecord demoHeaderRec RecordBuilder.init).buffer
        = RecordBuilder.init.buffer ++ (toLE 1 (opcodeOf demoHeaderRec)
            ++ (toLE 8 (payloadOf demoHeaderRec).length ++ payloadOf demoHeaderRec))
    ∧ ((applyWriteOps (RecordBuilder.init.start_record 5) demoOps).finish_record).buffer
        = RecordBuilder.init.buffer ++ (toLE 1 5
            ++ (toLE 8 (writeOpsBytes demoOps).length ++ writeOpsBytes demoOps)) :=
  ⟨rfl, (c1_record_framing.1 demoHeaderRec RecordBuilder.init rfl).1,
    (c1_record_framing.2 demoOps RecordBuilder.init 5 rfl).1⟩

/-- C4 counterexample: with a record already open (start_record called, no
matching finish_record), a second start_record call does not fail; it
proceeds, appending a fresh 9-byte header and overwriting the remembered
start offset, with the first placeholder left zeroed and never
backpatchable. -/
theorem c4_counterexample :
    (RecordBuilder.init.start_record Opcode.HEADER).start_record Opcode.FOOTER
      = ⟨[1, 0, 0, 0, 0, 0, 0, 0, 0, 2, 0, 0, 0, 0, 0, 0, 0, 0], 18, 9⟩ := by
  decide

/-- C4 amended: start_record performs no open-record check; on any builder
whose position is at the end of the buffer, including one with an open
record, it appends one opcode byte plus an 8-byte zero placeholder and
resets the remembered start offset to the previous position, without any
failure. -/
theorem c4_start_record_no_check (s : RecordBuilder) (op : Nat)
    (hp : s.pos = s.buffer.length) :
    s.start_record op = ⟨s.buffer ++ (toLE 1 op ++ toLE 8 0), s.pos + 9, s.pos⟩ := by
  obtain ⟨B, p, o⟩ := s
  have hp2 : p = B.length := hp
  subst hp2
  rw [start_record_shape]
  simp [toLE_length]

/-- Witness for the amended C4, applied on a builder that already has an
open record. -/
theorem c4_start_record_no_check_witness :
    (RecordBuilder.init.start_record Opcode.HEADER).pos
        = (RecordBuilder.init.start_record Opcode.HEADER).buffer.length
    ∧ (RecordBuilder.init.start_record Opcode.HEADER).start_record Opcode.FOOTER
        = ⟨(RecordBuilder.init.start_record Opcode.HEADER).buffer
              ++ (toLE 1 Opcode.FOOTER ++ toLE 8 0),
            (RecordBuilder.init.start_record Opcode.HEADER).pos + 9,
            (RecordBuilder.init.start_record Opcode.HEADER).pos⟩ :=
  ⟨rfl, c4_start_record_no_check _ Opcode.FOOTER rfl⟩

/-- C5 counterexample: a fixed-width writer given an out-of-range value does
not fail fast; struct.pack on the MicroPython target masks the value to the
field width, so write2 with 70000 silently appends the two bytes of
70000 mod 65536 = 4464 — a truncated value lands in the buffer. -/
theorem c5_counterexample :
    (RecordBuilder.init.write2 70000).buffer = [112, 17]
    ∧ fromLE [112, 17] = 4464
    ∧ (4464 : Nat) ≠ 70000 := by
  decide

/-- C5 amended: the fixed-width writers perform no range validation (spec
section 4.1: callers must ensure values fit); an out-of-range value is
reduced modulo 2 to the field width in bits and its little-endian bytes are
appended with no error; write_prefixed_string likewise records the UTF-8
byte length modulo 2 ^ 32. -/
theorem c5_writers_truncate (s : RecordBuilder) (v : Nat) (str : String)
    (hp : s.pos = s.buffer.length) :
    (s.write1 v).buffer = s.buffer ++ toLE 1 v
    ∧ (s.write2 v).buffer = s.buffer ++ toLE 2 v
    ∧ (s.write4 v).buffer = s.buffer ++ toLE 4 v
    ∧ (s.write8 v).buffer = s.buffer ++ toLE 8 v
    ∧ fromLE (toLE 1 v) = v % 2 ^ 8
    ∧ fromLE (toLE 2 v) = v % 2 ^ 16
    ∧ fromLE (toLE 4 v) = v % 2 ^ 32
    ∧ fromLE (toLE 8 v) = v % 2 ^ 64
    ∧ (s.write_prefixed_string str).buffer
        = s.buffer ++ (toLE 4 (utf8Bytes str).length ++ utf8Bytes str) := by
  obtain ⟨B, p, o⟩ := s
  have hp2 : p = B.length := hp
  subst hp2
  refine ⟨?_, ?_, ?_, ?_, ?_, ?_, ?_, ?_, ?_⟩
  · rw [write1_shape]
  · rw [write2_shape]
  · rw [write4_shape]
  · rw [write8_shape]
  · rw [fromLE_toLE, pow256_1]
  · rw [fromLE_toLE, pow256_2]
  · rw [fromLE_toLE, pow256_4]
  · rw [fromLE_toLE, pow256_8]
  · rw [wps_shape]
    rfl

/-- Witness for the amended C5 at the concrete out-of-range value 70000. -/
theorem c5_writers_truncate_witness :
    RecordBuilder.init.pos = RecordBuilder.init.buffer.length
    ∧ (RecordBuilder.init.write2 70000).buffer = RecordBuilder.init.buffer ++ toLE 2 70000
    ∧ fromLE (toLE 2 70000) = 70000 % 2 ^ 16 :=
  ⟨rfl, (c5_writers_truncate RecordBuilder.init 70000 cafeStr rfl).2.1,
    (c5_writers_truncate RecordBuilder.init 70000 cafeStr rfl).2.2.2.2.2.1⟩

/-- C6: write_prefixed_string appends exactly the UTF-8 byte length of the
value as a 4-byte little-endian unsigned integer followed by the UTF-8
bytes, with no terminator; for the string café the recorded length is the
UTF-8 byte count 5, not the character count 4. -/
theorem c6_prefixed_string (s : RecordBuilder) (v : String)
    (hp : s.pos = s.buffer.length) :
    (s.write_prefixed_string v).buffer
        = s.buffer ++ (toLE 4 (utf8Bytes v).length ++ utf8Bytes v)
    ∧ (s.write_prefixed_string v).pos = s.pos + (4 + (utf8Bytes v).length)
    ∧ ((utf8Bytes v).length < 2 ^ 32 →
        fromLE (toLE 4 (utf8Bytes v).length) = (utf8Bytes v).length)
    ∧ (utf8Bytes cafeStr).length = 5
    ∧ cafeStr.data.length = 4 := by
  obtain ⟨B, p, o⟩ := s
  have hp2 : p = B.length := hp
  subst hp2
  rw [wps_shape]
  refine ⟨rfl, ?_, ?_, by decide, by decide⟩
  · simp only [pstrBytes, List.length_append, toLE_length]
  · intro hlt
    exact fromLE_toLE_of_lt (by rw [pow256_4]; exact hlt)

/-- Witness for C6 at the string café on a fresh builder. -/
theorem c6_prefixed_string_witness :
    RecordBuilder.init.pos = RecordBuilder.init.buffer.length
    ∧ (RecordBuilder.init.write_prefixed_string cafeStr).buffer
        = RecordBuilder.init.buffer
          ++ (toLE 4 (utf8Bytes cafeStr).length ++ utf8Bytes cafeStr) :=
  ⟨rfl, (c6_prefixed_string RecordBuilder.init cafeStr rfl).1⟩

/-- C9: the end method returns the full accumulated byte sequence and leaves
the builder empty (count 0) and reusable: writing any record after end and
calling end again yields exactly that record bytes, with no residue from the
bytes drained by the prior end. -/
theorem c9_end_resets (s : RecordBuilder) (rec : McapRecord) :
    (s.endBuffer).1 = s.buffer
    ∧ (s.endBuffer).2.buffer = []
    ∧ (s.endBuffer).2.count = 0
    ∧ ((writeRecord rec (s.endBuffer).2).endBuffer).1 = recordBytesOf rec := by
  refine ⟨rfl, rfl, rfl, ?_⟩
  have h2 : (writeRecord rec (s.endBuffer).2).buffer = [] ++ recordBytesOf rec :=
    (writeRecord_shape rec [] s.recordStartOffset).1
  calc ((writeRecord rec (s.endBuffer).2).endBuffer).1
      = (writeRecord rec (s.endBuffer).2).buffer := rfl
    _ = [] ++ recordBytesOf rec := h2
    _ = recordBytesOf rec := by simp

/-- C2: for every record of each of the 15 kinds whose field values fit the
widths declared by the payload layout table, decoding the byte sequence
produced by the write operation with the independent byte-literal decoder
yields back exactly the supplied field values. -/
theorem c2_roundtrip (rec : McapRecord) (h : recInRange rec) :
    decodeRecord ((writeRecord rec RecordBuilder.init).buffer) = some rec := by
  have hinit : RecordBuilder.init = (⟨[], ([] : List Nat).length, 0⟩ : RecordBuilder) := rfl
  rw [hinit, (writeRecord_shape rec [] 0).1]
  simp only [List.nil_append]
  exact decode_encode_of_inRange rec h

/-- Witness for C2 on a concrete Channel record with a nonempty metadata
map. -/
theorem c2_roundtrip_witness :
    recInRange demoChannelRec
    ∧ decodeRecord ((writeRecord demoChannelRec RecordBuilder.init).buffer)
        = some demoChannelRec :=
  ⟨by decide, c2_roundtrip demoChannelRec (by decide)⟩

/-- C3: Attachment.write builds the record in a private builder, finalizes
it, copies the finished bytes except the last 4 placeholder bytes to the
destination, and appends a 4-byte CRC-32 computed over exactly the slice
from index 9 (just past the opcode and length header) through the last data
byte — every payload byte except the trailing checksum field. -/
theorem c3_attachment_crc (rec : Attachment) (s : RecordBuilder)
    (hp : s.pos = s.buffer.length) :
    ((attachmentPrivateBytes rec).drop 9).take ((attachmentPrivateBytes rec).length - 13)
        = Attachment.coreBytes rec
    ∧ (attachmentPrivateBytes rec).take ((attachmentPrivateBytes rec).length - 4)
        = (toLE 1 Opcode.ATTACHMENT
            ++ toLE 8 ((Attachment.coreBytes rec).length + 4)) ++ Attachment.coreBytes rec
    ∧ (rec.write s).buffer
        = s.buffer
          ++ ((attachmentPrivateBytes rec).take ((attachmentPrivateBytes rec).length - 4)
            ++ toLE 4 (crc32 (((attachmentPrivateBytes rec).drop 9).take
                ((attachmentPrivateBytes rec).length - 13))))
    ∧ (rec.write s).buffer
        = s.buffer ++ mkRecordBytes Opcode.ATTACHMENT
            (Attachment.coreBytes rec ++ toLE 4 (crc32 (Attachment.coreBytes rec))) := by
  have hpriv : attachmentPrivateBytes rec
      = mkRecordBytes Opcode.ATTACHMENT (Attachment.coreBytes rec ++ toLE 4 0) :=
    attachment_private rec
  have hH : ((toLE 1 Opcode.ATTACHMENT
      ++ toLE 8 (Attachment.coreBytes rec ++ toLE 4 0).length) : List Nat).length = 9 := by
    simp [toLE_length]
  have hT : ((toLE 4 0) : List Nat).length = 4 := by
    simp [toLE_length]
  have hD : mkRecordBytes Opcode.ATTACHMENT (Attachment.coreBytes rec ++ toLE 4 0)
      = (toLE 1 Opcode.ATTACHMENT
          ++ toLE 8 (Attachment.coreBytes rec ++ toLE 4 0).length)
        ++ (Attachment.coreBytes rec ++ toLE 4 0) := by
    simp [mkRecordBytes, List.append_assoc]
  have hslice : ((attachmentPrivateBytes rec).drop 9).take
      ((attachmentPrivateBytes rec).length - 13) = Attachment.coreBytes rec := by
    rw [hpriv, hD, slice_take _ _ _ hH hT]
  have hfront : (attachmentPrivateBytes rec).take ((attachmentPrivateBytes rec).length - 4)
      = (toLE 1 Opcode.ATTACHMENT
          ++ toLE 8 ((Attachment.coreBytes rec).length + 4)) ++ Attachment.coreBytes rec := by
    rw [hpriv, hD, front_take _ _ _ hT]
    simp [List.length_append, toLE_length]
  obtain ⟨B, p, o⟩ := s
  have hp2 : p = B.length := hp
  subst hp2
  have hw := attachment_write_shape rec B o
  refine ⟨hslice, hfront, ?_, ?_⟩
  · rw [hw, hslice, hfront]
    show B ++ Attachment.recordBytes rec = _
    simp [Attachment.recordBytes, Attachment.payloadBytes, mkRecordBytes, toLE_length,
      List.length_append, List.append_assoc]
  · rw [hw]
    show B ++ Attachment.recordBytes rec = _
    simp [Attachment.recordBytes, Attachment.payloadBytes]

/-- Witness for C3 on a concrete attachment with 3 data bytes. -/
theorem c3_attachment_crc_witness :
    RecordBuilder.init.pos = RecordBuilder.init.buffer.length
    ∧ (demoAttachment.write RecordBuilder.init).buffer
        = RecordBuilder.init.buffer ++ mkRecordBytes Opcode.ATTACHMENT
            (Attachment.coreBytes demoAttachment
              ++ toLE 4 (crc32 (Attachment.coreBytes demoAttachment))) :=
  ⟨rfl, (c3_attachment_crc demoAttachment RecordBuilder.init rfl).2.2.2⟩

/-- C7: for MessageIndex, ChunkIndex and Statistics records with any number
of entries, the written array byte-length field equals the entry count times
the fixed per-entry width (16, 10 and 10 bytes respectively), and this
equals the number of entry bytes actually written after the field. -/
theorem c7_array_length_fields :
    (∀ (rec : MessageIndex) (s : RecordBuilder), s.pos = s.buffer.length →
      (rec.write s).buffer = s.buffer ++ mkRecordBytes Opcode.MESSAGE_INDEX
          (toLE 2 rec.channel_id ++ (toLE 4 (rec.records.length * 16)
            ++ pairsBytes 8 8 rec.records))
      ∧ (pairsBytes 8 8 rec.records).length = rec.records.length * 16
      ∧ (rec.records.length * 16 < 2 ^ 32 →
          fromLE (toLE 4 (rec.records.length * 16)) = rec.records.length * 16))
    ∧ (∀ (rec : ChunkIndex) (s : RecordBuilder), s.pos = s.buffer.length →
      (rec.write s).buffer = s.buffer ++ mkRecordBytes Opcode.CHUNK_INDEX
          (toLE 8 rec.message_start_time ++ (toLE 8 rec.message_end_time
            ++ (toLE 8 rec.chunk_start_offset ++ (toLE 8 rec.chunk_length
            ++ (toLE 4 (rec.message_index_offsets.length * 10)
            ++ (pairsBytes 2 8 rec.message_index_offsets
            ++ (toLE 8 rec.message_index_length ++ (pstrBytes rec.compression
            ++ (toLE 8 rec.compressed_size ++ toLE 8 rec.uncompressed_size)))))))))
      ∧ (pairsBytes 2 8 rec.message_index_offsets).length
          = rec.message_index_offsets.length * 10
      ∧ (rec.message_index_offsets.length * 10 < 2 ^ 32 →
          fromLE (toLE 4 (rec.message_index_offsets.length * 10))
            = rec.message_index_offsets.length * 10))
    ∧ (∀ (rec : Statistics) (s : RecordBuilder), s.pos = s.buffer.length →
      (rec.write s).buffer = s.buffer ++ mkRecordBytes Opcode.STATISTICS
          (toLE 8 rec.message_count ++ (toLE 2 rec.schema_count
            ++ (toLE 4 rec.channel_count ++ (toLE 4 rec.attachment_count
            ++ (toLE 4 rec.metadata_count ++ (toLE 4 rec.chunk_count
            ++ (toLE 8 rec.message_start_time ++ (toLE 8 rec.message_end_time
            ++ (toLE 4 (rec.channel_message_counts.length * 10)
            ++ pairsBytes 2 8 rec.channel_message_counts)))))))))
      ∧ (pairsBytes 2 8 rec.channel_message_counts).length
          = rec.channel_message_counts.length * 10
      ∧ (rec.channel_message_counts.length * 10 < 2 ^ 32 →
          fromLE (toLE 4 (rec.channel_message_counts.length * 10))
            = rec.channel_message_counts.length * 10)) := by
  refine ⟨?_, ?_, ?_⟩
  · intro rec s hp
    obtain ⟨B, p, o⟩ := s
    have hp2 : p = B.length := hp
    subst hp2
    refine ⟨?_, ?_, ?_⟩
    · rw [messageIndex_write_shape]
      show B ++ MessageIndex.recordBytes rec = _
      simp [MessageIndex.recordBytes, MessageIndex.payloadBytes, mkRecordBytes,
        toLE_length, List.length_append, List.append_assoc]
    · rw [pairsBytes_length]
    · intro hlt
      exact fromLE_toLE_of_lt (by rw [pow256_4]; exact hlt)
  · intro rec s hp
    obtain ⟨B, p, o⟩ := s
    have hp2 : p = B.length := hp
    subst hp2
    refine ⟨?_, ?_, ?_⟩
    · rw [chunkIndex_write_shape]
      show B ++ ChunkIndex.recordBytes rec = _
      simp [ChunkIndex.recordBytes, ChunkIndex.payloadBytes, mkRecordBytes,
        toLE_length, List.length_append, List.append_assoc]
    · rw [pairsBytes_length]
    · intro hlt
      exact fromLE_toLE_of_lt (by rw [pow256_4]; exact hlt)
  · intro rec s hp
    obtain ⟨B, p, o⟩ := s
    have hp2 : p = B.length := hp
    subst hp2
    refine ⟨?_, ?_, ?_⟩
    · rw [statistics_write_shape]
      show B ++ Statistics.recordBytes rec = _
      simp [Statistics.recordBytes, Statistics.payloadBytes, mkRecordBytes,
        toLE_length, List.length_append, List.append_assoc]
    · rw [pairsBytes_length]
    · intro hlt
      exact fromLE_toLE_of_lt (by rw [pow256_4]; exact hlt)

/-- Witness for C7 at concrete MessageIndex, ChunkIndex and Statistics
records with entries. -/
theorem c7_array_length_fields_witness :
    RecordBuilder.init.pos = RecordBuilder.init.buffer.length
    ∧ (pairsBytes 8 8 demoMessageIndex.records).length
        = demoMessageIndex.records.length * 16
    ∧ (pairsBytes 2 8 demoChunkIndex.message_index_offsets).length
        = demoChunkIndex.message_index_offsets.length * 10
    ∧ (pairsBytes 2 8 demoStatistics.channel_message_counts).length
        = demoStatistics.channel_message_counts.length * 10 :=
  ⟨rfl, (c7_array_length_fields.1 demoMessageIndex RecordBuilder.init rfl).2.1,
    (c7_array_length_fields.2.1 demoChunkIndex RecordBuilder.init rfl).2.1,
    (c7_array_length_fields.2.2 demoStatistics RecordBuilder.init rfl).2.1⟩

/-- C8: for Channel and Metadata records, the 4-byte map length prefix
equals the total byte length of the encoded key and value pairs that follow
(8 bytes of string length prefixes plus the UTF-8 byte lengths of key and
value per pair), not counting the prefix itself, and the pairs are emitted
as two prefixed strings each, in insertion order. -/
theorem c8_map_length_prefix :
    (∀ (rec : Channel) (s : RecordBuilder), s.pos = s.buffer.length →
      (rec.write s).buffer = s.buffer ++ mkRecordBytes Opcode.CHANNEL
          (toLE 2 rec.id ++ (toLE 2 rec.schema_id ++ (pstrBytes rec.topic
            ++ (pstrBytes rec.message_encoding ++ (toLE 4 (metaLen rec.metadata)
            ++ metaBytes rec.metadata))))))
    ∧ (∀ (rec : Metadata) (s : RecordBuilder), s.pos = s.buffer.length →
      (rec.write s).buffer = s.buffer ++ mkRecordBytes Opcode.METADATA
          (pstrBytes rec.name ++ (toLE 4 (metaLen rec.metadata)
            ++ metaBytes rec.metadata)))
    ∧ (∀ m : List (String × String), (metaBytes m).length = metaLen m)
    ∧ (∀ (kv : String × String) (m : List (String × String)),
        metaBytes (kv :: m) = pstrBytes kv.1 ++ (pstrBytes kv.2 ++ metaBytes m)
        ∧ metaLen (kv :: m)
            = 8 + (utf8Bytes kv.1).length + (utf8Bytes kv.2).length + metaLen m)
    ∧ (∀ m : List (String × String), metaLen m < 2 ^ 32 →
        fromLE (toLE 4 (metaLen m)) = metaLen m) := by
  refine ⟨?_, ?_, metaBytes_length, fun kv m => ⟨rfl, metaLen_cons kv m⟩, ?_⟩
  · intro rec s hp
    obtain ⟨B, p, o⟩ := s
    have hp2 : p = B.length := hp
    subst hp2
    rw [channel_write_shape]
    show B ++ Channel.recordBytes rec = _
    simp [Channel.recordBytes, Channel.payloadBytes, mkRecordBytes, toLE_length,
      List.length_append, List.append_assoc]
  · intro rec s hp
    obtain ⟨B, p, o⟩ := s
    have hp2 : p = B.length := hp
    subst hp2
    rw [metadata_write_shape]
    show B ++ Metadata.recordBytes rec = _
    simp [Metadata.recordBytes, Metadata.payloadBytes, mkRecordBytes, toLE_length,
      List.length_append, List.append_assoc]
  · intro m hlt
    exact fromLE_toLE_of_lt (by rw [pow256_4]; exact hlt)

/-- Witness for C8 at concrete Channel and Metadata records with a nonempty
metadata map. -/
theorem c8_map_length_prefix_witness :
    RecordBuilder.init.pos = RecordBuilder.init.buffer.length
    ∧ (demoChannel.write RecordBuilder.init).buffer
        = RecordBuilder.init.buffer ++ mkRecordBytes Opcode.CHANNEL
            (toLE 2 demoChannel.id ++ (toLE 2 demoChannel.schema_id
              ++ (pstrBytes demoChannel.topic ++ (pstrBytes demoChannel.message_encoding
              ++ (toLE 4 (metaLen demoChannel.metadata)
              ++ metaBytes demoChannel.metadata)))))
    ∧ (metaBytes demoMetadata.metadata).length = metaLen demoMetadata.metadata :=
  ⟨rfl, c8_map_length_prefix.1 demoChannel RecordBuilder.init rfl,
    c8_map_length_prefix.2.2.1 demoMetadata.metadata⟩

/-- C10: record writes only append to the destination (every byte present
before the call is unchanged and the new bytes follow them); each public
builder operation leaves the write position at the end of the buffer so
count equals the buffer size; and finish_record overwrites only its own
8-byte length placeholder, preserving the buffer length and every byte
outside the placeholder. -/
theorem c10_frame_effect :
    (∀ (rec : McapRecord) (s : RecordBuilder), s.pos = s.buffer.length →
      (writeRecord rec s).buffer = s.buffer ++ recordBytesOf rec
      ∧ (writeRecord rec s).pos = (writeRecord rec s).buffer.length
      ∧ (writeRecord rec s).count = (writeRecord rec s).buffer.length)
    ∧ (∀ (s : RecordBuilder) (d : List Nat) (v : Nat) (str : String) (op : Nat),
        s.pos = s.buffer.length →
        ((s.write d).buffer = s.buffer ++ d
            ∧ (s.write d).pos = (s.write d).buffer.length)
        ∧ (s.write1 v).pos = (s.write1 v).buffer.length
        ∧ (s.write2 v).pos = (s.write2 v).buffer.length
        ∧ (s.write4 v).pos = (s.write4 v).buffer.length
        ∧ (s.write8 v).pos = (s.write8 v).buffer.length
        ∧ (s.write_prefixed_string str).pos
            = (s.write_prefixed_string str).buffer.length
        ∧ ((s.start_record op).buffer = s.buffer ++ (toLE 1 op ++ toLE 8 0)
            ∧ (s.start_record op).pos = (s.start_record op).buffer.length))
    ∧ (∀ (s : RecordBuilder), s.pos = s.buffer.length →
        s.recordStartOffset + 9 ≤ s.pos →
        s.finish_record = ⟨s.buffer.take (s.recordStartOffset + 1)
            ++ (toLE 8 (s.pos - s.recordStartOffset - 9)
            ++ s.buffer.drop (s.recordStartOffset + 9)), s.pos, s.recordStartOffset⟩
        ∧ (s.finish_record).buffer.length = s.buffer.length
        ∧ (s.finish_record).pos = (s.finish_record).buffer.length)
    ∧ (∀ s : RecordBuilder, ((s.endBuffer).2).pos = ((s.endBuffer).2).buffer.length) := by
  refine ⟨?_, ?_, ?_, fun s => rfl⟩
  · intro rec s hp
    obtain ⟨h1, h2⟩ := writeRecord_append rec hp
    exact ⟨h1, h2, h2⟩
  · intro s d v str op hp
    obtain ⟨B, p, o⟩ := s
    have hp2 : p = B.length := hp
    subst hp2
    refine ⟨⟨?_, ?_⟩, ?_, ?_, ?_, ?_, ?_, ?_, ?_⟩
    · rw [Mcap.write_shape]
    · rw [Mcap.write_shape]
    · rw [write1_shape]
    · rw [write2_shape]
    · rw [write4_shape]
    · rw [write8_shape]
    · rw [wps_shape]
    · rw [start_record_shape]
    · rw [start_record_shape]
  · intro s hp ho
    obtain ⟨B, p, o⟩ := s
    have hp2 : p = B.length := hp
    subst hp2
    have ho2 : o + 9 ≤ B.length := ho
    have h := finish_record_patch B o B.length rfl ho2
    refine ⟨h, ?_, ?_⟩
    · rw [h]
      dsimp only
      simp only [List.length_append, List.length_take, List.length_drop, toLE_length]
      omega
    · rw [h]
      dsimp only
      simp only [List.length_append, List.length_take, List.length_drop, toLE_length]
      omega

/-- Witness for C10 on a fresh builder and a concrete record. -/
theorem c10_frame_effect_witness :
    RecordBuilder.init.pos = RecordBuilder.init.buffer.length
    ∧ (writeRecord demoHeaderRec RecordBuilder.init).buffer
        = RecordBuilder.init.buffer ++ recordBytesOf demoHeaderRec
    ∧ (writeRecord demoHeaderRec RecordBuilder.init).pos
        = (writeRecord demoHeaderRec RecordBuilder.init).buffer.length :=
  ⟨rfl, (c10_frame_effect.1 demoHeaderRec RecordBuilder.init rfl).1,
    (c10_frame_effect.1 demoHeaderRec RecordBuilder.init rfl).2.1⟩

end Mcap
